import Mathlib

/-!
Verification of the data-access and metrics core of the `value-dashboard`
repository (`stock_dashboard/data_access.py` and `stock_dashboard/metrics.py`),
via a shallow embedding in Lean.

Python runtime values are modelled by the inductive `PyVal`; `datetime`
instants and durations are modelled as integer seconds; Python dictionaries
keyed by strings are modelled as association lists (first binding wins, as
`dict.get` returns the unique binding of a key).
-/

namespace StockDashboard

/-- Model of a Python runtime value as it flows through the dashboard code:
`None`, booleans, numbers (`int`/`float`, modelled exactly as rationals),
strings, lists, string-keyed dicts, and anything else (`vother`). -/
inductive PyVal where
  | vnone
  | vbool (b : Bool)
  | vnum (q : ℚ)
  | vstr (s : String)
  | vlist (xs : List PyVal)
  | vdict (xs : List (String × PyVal))
  | vother
  deriving Repr

/-- Python truthiness (`bool(v)`) for the modelled values. -/
def pyTruthy : PyVal → Bool
  | .vnone => false
  | .vbool b => b
  | .vnum q => q != 0
  | .vstr s => s != ""
  | .vlist xs => !xs.isEmpty
  | .vdict xs => !xs.isEmpty
  | .vother => true

/-- `isinstance(v, (int, float))`: Python booleans are `int` subclasses, so
they satisfy the check as well. -/
def pyIsNum : PyVal → Bool
  | .vnum _ => true
  | .vbool _ => true
  | _ => false

/-- The numeric value of a value passing `pyIsNum` (`True` counts as 1). -/
def pyNumVal : PyVal → ℚ
  | .vnum q => q
  | .vbool b => if b then 1 else 0
  | _ => 0

/-- `xs.get(k)` on a string-keyed dict: `some` value or `none` when absent. -/
def dictGet (xs : List (String × PyVal)) (k : String) : Option PyVal :=
  (xs.find? (fun p => p.1 == k)).map (fun p => p.2)

/-- `xs.get(k, d)` on a string-keyed dict. -/
def dictGetD (xs : List (String × PyVal)) (k : String) (d : PyVal) : PyVal :=
  (dictGet xs k).getD d

/-- `int(q)` on a Python number: truncation toward zero. -/
def ratTrunc (q : ℚ) : Int := Int.tdiv q.num q.den

/-- Parse an optional-sign decimal integer, modelling `int(s)` on a string. -/
def strToIntOpt (s : String) : Option Int :=
  match s.data with
  | [] => none
  | c :: cs =>
    let digits? : List Char → Option Nat := fun ds =>
      if ds.isEmpty then none
      else ds.foldl (fun acc d =>
        match acc with
        | none => none
        | some n => if d.isDigit then some (n * 10 + (d.toNat - 48)) else none)
        (some 0)
    if c = '-' then (digits? cs).map (fun n => -(n : Int))
    else if c = '+' then (digits? cs).map (fun n => (n : Int))
    else (digits? (c :: cs)).map (fun n => (n : Int))

/-- `int(v)` on a Python value, `none` when it raises
(`TypeError`/`ValueError`). Numbers truncate toward zero, booleans map to
0/1, integer-looking strings parse, everything else raises. -/
def pyToIntOpt : PyVal → Option Int
  | .vnum q => some (ratTrunc q)
  | .vbool b => some (if b then 1 else 0)
  | .vstr s => strToIntOpt s
  | _ => none

/-- Python `<` between two values: `some` result, or `none` when the
comparison raises `TypeError` (as between unrelated types). -/
def pyLt : PyVal → PyVal → Option Bool
  | .vnum a, .vnum b => some (decide (a < b))
  | .vnum a, .vbool b => some (decide (a < pyNumVal (.vbool b)))
  | .vbool a, .vnum b => some (decide (pyNumVal (.vbool a) < b))
  | .vbool a, .vbool b => some (decide (pyNumVal (.vbool a) < pyNumVal (.vbool b)))
  | _, _ => none

/-- ASCII model of `str.upper` on one character. -/
def pyUpperChar (c : Char) : Char :=
  if 97 ≤ c.toNat ∧ c.toNat ≤ 122 then Char.ofNat (c.toNat - 32) else c

/-- ASCII model of `str.lower` on one character. -/
def pyLowerChar (c : Char) : Char :=
  if 65 ≤ c.toNat ∧ c.toNat ≤ 90 then Char.ofNat (c.toNat + 32) else c

/-- ASCII model of Python `str.upper()` (ticker symbols are ASCII). -/
def pyUpper (s : String) : String := ⟨s.data.map pyUpperChar⟩

/-- ASCII model of Python `str.lower()`. -/
def pyLower (s : String) : String := ⟨s.data.map pyLowerChar⟩

/-- Code-point comparison of strings, modelling Python `<=` on strings
(used through `sorted`). -/
def strLeb (a b : String) : Bool :=
  let rec go : List Char → List Char → Bool
    | [], _ => true
    | _ :: _, [] => false
    | x :: xs, y :: ys =>
      if x.toNat < y.toNat then true
      else if y.toNat < x.toNat then false
      else go xs ys
  go a.data b.data

/-- Insertion step for `sortStrings`. -/
def insertSorted (s : String) : List String → List String
  | [] => [s]
  | x :: xs => if strLeb s x then s :: x :: xs else x :: insertSorted s xs

/-- Model of Python `sorted` on a collection of strings. -/
def sortStrings (l : List String) : List String := l.foldr insertSorted []

/-- Model of a `Retry-After` header value as seen by `_parse_retry_after`:
either `int(str(v))` succeeds with `n`; or it fails but
`datetime.fromisoformat(str(v))` succeeds, denoting the absolute instant `t`
(an ISO-8601 date string); or the value is an RFC 1123 HTTP-date for instant
`t` (`int` fails, and `fromisoformat` does not accept RFC 1123 dates, so it
fails too); or neither parse succeeds. -/
inductive HVal where
  | hint (n : Int)
  | hiso (t : Int)
  | hhttpdate (t : Int)
  | hother
  deriving Repr, DecidableEq

/-- First header binding whose key lowercases to "retry-after"
(`data_access._parse_retry_after`, header scan). -/
def findRetryAfterHeader (headers : List (String × HVal)) : Option HVal :=
  (headers.find? (fun p => pyLower p.1 == "retry-after")).map (fun p => p.2)

/-- Embedding of `data_access._parse_retry_after(headers, payload)`, with the
current instant `now` passed explicitly (the source reads `_utcnow()`).
When a `Retry-After` header is present: `int` value, else ISO-date converted
to seconds from now floored at zero, else `None` (without consulting the
payload). Otherwise a truthy `retry_after`/`retryAfter` field of a mapping
payload is converted with `int`, else `None`.  This definition is the
payload fallback branch. -/
def pickedRetryField (xs : List (String × PyVal)) : PyVal :=
  if pyTruthy (dictGetD xs "retry_after" .vnone) then dictGetD xs "retry_after" .vnone
  else dictGetD xs "retryAfter" .vnone

/-- See the comment above `pickedRetryField`: this is the payload fallback
branch of `_parse_retry_after`. -/
def parsePayloadRetryAfter : PyVal → Option Int
  | .vdict xs =>
    if pyTruthy (pickedRetryField xs) then
      match pyToIntOpt (pickedRetryField xs) with
      | some n => some n
      | none => none
    else none
  | _ => none

/-- See `parsePayloadRetryAfter` for the payload fallback, reached only when
no `Retry-After` header is present. -/
def parse_retry_after (headers : List (String × HVal)) (payload : PyVal) (now : Int) :
    Option Int :=
  match findRetryAfterHeader headers with
  | some (.hint n) => some n
  | some (.hiso t) => some (max 0 (t - now))
  | some (.hhttpdate _) => none
  | some .hother => none
  | none => parsePayloadRetryAfter payload

/-- Shape of a provider-section object as dispatched by
`data_access._safe_section`: a pandas `DataFrame` (rows indexed by ticker), a
pandas `Series` (a single labelled record), an object with key-based `get`
(e.g. a dict), or any other shape. -/
inductive SectionObj where
  | dataFrame (rows : List (String × List (String × PyVal)))
  | series (name : Option String) (vals : List (String × PyVal))
  | mapObj (entries : List (String × PyVal))
  | otherObj
  deriving Repr

/-- Embedding of `data_access._safe_section(section, ticker)`.  For a
`DataFrame`, `ticker in section.index` followed by `section.loc[ticker]`
yields a `Series` exactly when the ticker indexes a single row (with a
duplicated index, `loc` returns a `DataFrame` and the `isinstance` check
fails, falling through to `{}`). -/
def safe_section : SectionObj → String → List (String × PyVal)
  | .dataFrame rows, ticker =>
    (match rows.filter (fun p => p.1 == ticker) with
     | [r] => r.2
     | _ => [])
  | .series name vals, ticker => if name == some ticker then vals else []
  | .mapObj entries, ticker =>
    (match dictGet entries ticker with
     | some (.vdict xs) => xs
     | some _ => []
     | none => [])
  | .otherObj, _ => []

/-- Embedding of the `data_access.RateLimitError` dataclass.  Header values
are the abstract `HVal`; `payload` uses `PyVal.vnone` for Python `None`. -/
structure RateLimitError where
  status_code : Option Int
  message : String
  retry_after : Option Int
  headers : List (String × HVal)
  host : Option String := none
  payload : PyVal := .vnone
  remaining : Option Int := none
  deriving Repr

/-- The process-wide `RATE_LIMIT_COOLDOWNS` dict: host name to the instant
after which retries may resume. -/
def Cooldowns := List (String × Int)

/-- Python dict assignment `d[host] = t`: replace the binding in place when
the key exists (dict keys are unique), else append. -/
def updateCooldown (cds : List (String × Int)) (host : String) (t : Int) :
    List (String × Int) :=
  if cds.any (fun p => p.1 == host) then
    cds.map (fun p => if p.1 == host then (p.1, t) else p)
  else cds ++ [(host, t)]

/-- The default used when a record carries no usable retry-after,
`data_access._DEFAULT_RATE_LIMIT_SECONDS`. -/
def DEFAULT_RATE_LIMIT_SECONDS : Int := 60

/-- The effective retry-after of `_record_rate_limit`:
`rate_limit_error.retry_after or _DEFAULT_RATE_LIMIT_SECONDS`.  Python `or`
treats the integer 0 as falsy, so an explicit `retry_after = 0` also falls
back to the 60-second default. -/
def effectiveRetryAfter : Option Int → Int
  | some n => if n = 0 then DEFAULT_RATE_LIMIT_SECONDS else n
  | none => DEFAULT_RATE_LIMIT_SECONDS

/-- The effective host of `_record_rate_limit`:
`rate_limit_error.host or "yahoo_finance"` (an empty string is falsy). -/
def effectiveHost : Option String → String
  | some s => if s = "" then "yahoo_finance" else s
  | none => "yahoo_finance"

/-- Embedding of `data_access._record_rate_limit`: installs the host cooldown
at `now + retry_after` and mutates the record, setting `remaining` to the
effective retry-after.  Returns the updated record and cooldown table. -/
def record_rate_limit (e : RateLimitError) (now : Int) (cds : List (String × Int)) :
    RateLimitError × List (String × Int) :=
  let retry := effectiveRetryAfter e.retry_after
  let host := effectiveHost e.host
  ({ e with remaining := some retry }, updateCooldown cds host (now + retry))

/-- One iteration of the scan inside `_active_rate_limit`: keep the
candidate unless this entry is in the future and strictly sooner (the
first-seen entry wins ties). -/
def soonestStep (now : Int) (acc : Option (String × Int)) (p : String × Int) :
    Option (String × Int) :=
  if p.2 > now ∧ (match acc with | none => true | some q => decide (p.2 < q.2)) = true
  then some p else acc

/-- The fold inside `_active_rate_limit`: the first-seen entry among those
with `resume_at > now` having the strictly smallest `resume_at`. -/
def soonestActiveCooldown (cds : List (String × Int)) (now : Int) :
    Option (String × Int) :=
  cds.foldl (soonestStep now) none

/-- Embedding of `data_access._active_rate_limit`: `none` when no cooldown
lies in the future, else a record for the soonest-expiring active cooldown
with `remaining` the whole seconds until it expires (floored at zero). -/
def active_rate_limit (cds : List (String × Int)) (now : Int) :
    Option RateLimitError :=
  match soonestActiveCooldown cds now with
  | none => none
  | some (h, resumeAt) =>
    let remaining := max 0 (resumeAt - now)
    some { status_code := none, message := "Rate limit active",
           retry_after := some remaining, headers := [], host := some h,
           payload := .vnone, remaining := some remaining }

/-- Environment-driven configuration of the data-access module: the
`SMOKE_TEST` fast-path toggle, the `YF_DISABLE_CACHE` toggle, and the two
TTL overrides (`YF_PRICE_TTL_SECONDS`, default 300, and
`YF_FUNDAMENTAL_TTL_SECONDS`, default 21600). -/
structure Config where
  smoke : Bool
  cacheDisabledEnv : Bool
  priceTTL : Int := 300
  fundTTL : Int := 21600

/-- Embedding of `data_access._cache_enabled`. -/
def cache_enabled (cfg : Config) : Bool := !cfg.smoke && !cfg.cacheDisabledEnv

/-- Embedding of `data_access._section_ttl_seconds`. -/
def section_ttl_seconds (cfg : Config) (sec : String) : Int :=
  if sec = "price" ∨ sec = "summary_detail" then cfg.priceTTL else cfg.fundTTL

/-- The process-wide mutable state of the data-access module:
`CACHED_SECTIONS` (a map from (ticker, section) to (expiry, payload)) and
`RATE_LIMIT_COOLDOWNS`. -/
structure CacheState where
  cache : String × String → Option (Int × PyVal)
  cooldowns : List (String × Int)

/-- Embedding of `data_access._get_cached_section` (lazy expiry: an entry at
or past its expiry is popped and treated as a miss). -/
def get_cached_section (cfg : Config) (st : CacheState) (ticker sec : String)
    (now : Int) : Option PyVal × CacheState :=
  if !cache_enabled cfg then (none, st)
  else
    match st.cache (ticker, sec) with
    | none => (none, st)
    | some (expiresAt, payload) =>
      if now < expiresAt then (some payload, st)
      else (none, { st with cache := fun k =>
        if k = (ticker, sec) then none else st.cache k })

/-- Embedding of `data_access._set_cached_section`: unconditional overwrite
with the section category TTL. -/
def set_cached_section (cfg : Config) (st : CacheState) (ticker sec : String)
    (payload : PyVal) (now : Int) : CacheState :=
  if !cache_enabled cfg then st
  else { st with cache := fun k =>
    if k = (ticker, sec) then some (now + section_ttl_seconds cfg sec, payload)
    else st.cache k }

/-- The `response` attribute optionally carried by an upstream exception:
status code, headers (`none` when the attribute is not a mapping, which
`_normalize_headers` turns into `{}`), the outcome of `response.json()`, the
`text` attribute (`vnone` when absent), and the hostname that
`_extract_host` derives from `response.url` / `response.request.url` via
`urllib.parse.urlparse` (modelled as the extracted hostname itself). -/
structure RespInfo where
  status_code : Option Int := none
  headersObj : Option (List (String × HVal)) := none
  jsonResult : Except Unit PyVal := .error ()
  textAttr : PyVal := .vnone
  urlHost : Option String := none

/-- An exception raised by the provider client: its message (`str(exc)`), an
optional `status_code` attribute, and an optional `response` attribute. -/
structure ExcInfo where
  msg : String
  statusCodeAttr : Option Int := none
  response : Option RespInfo := none

/-- The structured per-section error dict built by
`fetch_ticker_sections._capture_error_details`.  Optional fields model
conditionally-present dict keys: `headers` is present iff non-empty, and
`retry_after` iff the parsed hint is truthy. -/
structure ErrorDetails where
  message : String
  status_code : Option Int := none
  headers : List (String × HVal) := []
  host : Option String := none
  retry_after : Option Int := none
  rate_limit : Option RateLimitError := none

/-- Embedding of `_capture_error_details(exc)` (closure inside
`fetch_ticker_sections`), with `now` passed for the retry-after date
conversion.  A zero `status_code` attribute is falsy in Python, so it is
overwritten from the response like `None`. -/
def capture_error_details (exc : ExcInfo) (now : Int) : ErrorDetails :=
  let statusCode : Option Int :=
    match exc.statusCodeAttr, exc.response with
    | some n, some r => if n = 0 then r.status_code else some n
    | some n, none => some n
    | none, some r => r.status_code
    | none, none => none
  let headers : List (String × HVal) :=
    match exc.response with
    | some r => r.headersObj.getD []
    | none => []
  let payload : PyVal :=
    match exc.response with
    | none => .vnone
    | some r =>
      match r.jsonResult with
      | .ok p => p
      | .error _ => r.textAttr
  let host : Option String := exc.response.bind (fun r => r.urlHost)
  let retryAfter : Option Int := parse_retry_after headers payload now
  let retryTruthy : Bool :=
    match retryAfter with
    | some n => n != 0
    | none => false
  let rateLimit : Option RateLimitError :=
    if statusCode = some 429 ∨ statusCode = some 503 ∨ retryTruthy then
      some { status_code := statusCode, message := exc.msg,
             retry_after := retryAfter, headers := headers, host := host,
             payload := payload, remaining := retryAfter }
    else none
  { message := exc.msg, status_code := statusCode, headers := headers,
    host := host,
    retry_after := if retryTruthy then retryAfter else none,
    rate_limit := rateLimit }

/-- Outcome of `ticker_client.history(period="5y")`: whether the returned
frame is empty and whether it has a `close` column (all that
`_detect_buybacks` inspects). -/
structure HistInfo where
  empty : Bool
  hasClose : Bool

/-- Upstream behaviour for one fetch: the client constructor
(`ticker_cls(ticker)`), each section attribute access, and the history
call.  An `Except.error` models the Python call raising. -/
structure Oracle where
  ctor : Except ExcInfo Unit
  sectionAttr : String → Except ExcInfo SectionObj
  history : Except Unit HistInfo

/-- Embedding of `data_access._detect_buybacks(ticker_client, key_stats)`.
Any exception inside (history failure, `.get` on a non-mapping, an
unorderable comparison) is swallowed into `none`. -/
def detect_buybacks (o : Oracle) (keyStats : PyVal) : Option Bool :=
  match o.history with
  | .error _ => none
  | .ok h =>
    if !h.empty && h.hasClose then
      match keyStats with
      | .vdict xs =>
        match dictGet xs "sharesOutstanding" with
        | some (.vlist counts) =>
          if counts.length > 1 then
            match counts.getLast?, counts.head? with
            | some last, some first => pyLt last first
            | _, _ => none
          else none
        | _ => none
      | _ => none
    else none

/-- The `cache_info` mapping of a bundle.  Optional fields model keys that
some return paths omit (the smoke path emits only `sections_cached`; the
rate-limit path omits `cache_disabled`). -/
structure CacheInfo where
  sections_cached : List String
  served_from_cache : Option Bool := none
  cache_disabled : Option Bool := none

/-- The Ticker Sections Bundle returned by `fetch_ticker_sections`: the six
core sections, the derived `buybacks` value, the `error` detail (`none`
models the empty/absent error mapping) and cache provenance. -/
structure Bundle where
  summary_detail : PyVal
  financial_data : PyVal
  asset_profile : PyVal
  key_stats : PyVal
  quote_type : PyVal
  price : PyVal
  buybacks : PyVal
  error : Option ErrorDetails
  cache_info : CacheInfo

/-- The six core section names, in the order the source declares them. -/
def core_section_names : List String :=
  ["summary_detail", "financial_data", "asset_profile", "key_stats",
   "quote_type", "price"]

/-- `requested_sections` of `fetch_ticker_sections`: the core sections plus
the synthetic `buybacks` entry. -/
def requested_sections : List String := core_section_names ++ ["buybacks"]

/-- One step of the initial cache-lookup pass: look the section up, record a
hit, thread the (possibly evicting) state. -/
def cacheLookupStep (cfg : Config) (ticker : String) (now : Int)
    (acc : List (String × PyVal) × CacheState) (name : String) :
    List (String × PyVal) × CacheState :=
  match get_cached_section cfg acc.2 ticker name now with
  | (some p, st) => (acc.1 ++ [(name, p)], st)
  | (none, st) => (acc.1, st)

/-- The initial cache-lookup pass of `fetch_ticker_sections`: collect the
cached payload of every requested section (recording hits in order) while
threading lazy-expiry evictions through the state. -/
def cacheLookupPhase (cfg : Config) (st : CacheState) (ticker : String)
    (now : Int) : List (String × PyVal) × CacheState :=
  requested_sections.foldl (cacheLookupStep cfg ticker now) ([], st)

/-- `sections.get(name, {})` on the working sections dict. -/
def lookupSectionD (xs : List (String × PyVal)) (k : String) : PyVal :=
  dictGetD xs k (.vdict [])

/-- Assemble a bundle from a working sections dict the way every return path
of `fetch_ticker_sections` does (`sections.get(name, {})` per core
section). -/
def bundleFromSections (secs : List (String × PyVal)) (buybacks : PyVal)
    (err : Option ErrorDetails) (ci : CacheInfo) : Bundle :=
  { summary_detail := lookupSectionD secs "summary_detail",
    financial_data := lookupSectionD secs "financial_data",
    asset_profile := lookupSectionD secs "asset_profile",
    key_stats := lookupSectionD secs "key_stats",
    quote_type := lookupSectionD secs "quote_type",
    price := lookupSectionD secs "price",
    buybacks := buybacks, error := err, cache_info := ci }

/-- The canned demonstration bundle of the smoke-mode fast path (cache hits
override the canned values where present). -/
def smokeBundle (ticker : String) (cached : List (String × PyVal))
    (hits : List String) : Bundle :=
  { summary_detail := dictGetD cached "summary_detail" (.vdict
      [("trailingPE", .vnum 15), ("priceToBook", .vnum 2.1),
       ("priceToSalesTrailing12Months", .vnum 4.2),
       ("dividendYield", .vnum 0.012), ("pegRatio", .vnum 1.3)]),
    financial_data := dictGetD cached "financial_data" (.vdict
      [("profitMargins", .vnum 0.22), ("returnOnEquity", .vnum 0.17),
       ("currentRatio", .vnum 2.1), ("quickRatio", .vnum 1.6),
       ("revenueGrowth", .vnum 0.07), ("earningsGrowth", .vnum 0.06),
       ("operatingMargins", .vnum 0.14), ("debtToEquity", .vnum 42),
       ("freeCashflow", .vnum (32 * 10 ^ 9)),
       ("operatingCashflow", .vnum (45 * 10 ^ 9)),
       ("totalRevenue", .vnum (24 * 10 ^ 10)),
       ("totalDebt", .vnum (55 * 10 ^ 9))]),
    asset_profile := dictGetD cached "asset_profile" (.vdict
      [("industry", .vstr "Demo Software"), ("sector", .vstr "Technology")]),
    key_stats := dictGetD cached "key_stats" (.vdict
      [("marketCap", .vnum (16 * 10 ^ 11)),
       ("sharesOutstanding", .vnum (16 * 10 ^ 9)),
       ("revenuePerShare", .vnum 14.5), ("enterpriseToEbitda", .vnum 14),
       ("heldPercentInsiders", .vnum 0.08)]),
    quote_type := dictGetD cached "quote_type" (.vdict
      [("symbol", .vstr ticker),
       ("longName", .vstr (ticker ++ " Demo Corp"))]),
    price := dictGetD cached "price" (.vdict
      [("shortName", .vstr (ticker ++ " Demo"))]),
    buybacks := dictGetD cached "buybacks" (.vbool true),
    error := none,
    cache_info := { sections_cached := sortStrings hits } }

/-- The per-missing-section loop of `fetch_ticker_sections` (lines 621-636):
for each core section not yet present, read the attribute; on success
normalize and cache it, on failure capture details, record a qualifying rate
limit, store (and cache) an empty mapping, and keep the first error.
Returns (sections, state, first error, attribute names actually read). -/
def sectionLoop (cfg : Config) (o : Oracle) (ticker : String) (now : Int) :
    List String → List (String × PyVal) → CacheState → Option ErrorDetails →
      List String →
      List (String × PyVal) × CacheState × Option ErrorDetails × List String
  | [], sections, st, err, reads => (sections, st, err, reads)
  | key :: rest, sections, st, err, reads =>
    if sections.any (fun p => p.1 == key) then
      sectionLoop cfg o ticker now rest sections st err reads
    else
      match o.sectionAttr key with
      | .ok obj =>
        let payload : PyVal := .vdict (safe_section obj ticker)
        sectionLoop cfg o ticker now rest (sections ++ [(key, payload)])
          (set_cached_section cfg st ticker key payload now) err (reads ++ [key])
      | .error exc =>
        let d := capture_error_details exc now
        let dst : ErrorDetails × CacheState :=
          match d.rate_limit with
          | some rl =>
            let r := record_rate_limit rl now st.cooldowns
            ({ d with rate_limit := some r.1 }, { st with cooldowns := r.2 })
          | none => (d, st)
        sectionLoop cfg o ticker now rest (sections ++ [(key, .vdict [])])
          (set_cached_section cfg dst.2 ticker key (.vdict []) now)
          (match err with | none => some dst.1 | some e => some e)
          (reads ++ [key])

/-- Result of one embedded fetch: the bundle, the updated process state, and
an instrumentation trace (whether `ticker_cls(ticker)` was invoked, which
section attributes were read over the network, and whether the buyback
history call was attempted). -/
structure FetchResult where
  bundle : Bundle
  state : CacheState
  ctorCalled : Bool
  attrsRead : List String
  historyCalled : Bool

/-- The early-return bundle of the rate-limit short circuit (an active
cooldown and at least one missing core section): sections from cache hits or
empty, the cooldown in `error`, no network activity. -/
def rateLimitResult (cached : List (String × PyVal)) (st1 : CacheState)
    (missing : List String) (limit : RateLimitError) : FetchResult :=
  { bundle := bundleFromSections cached (dictGetD cached "buybacks" .vnone)
      (some { message := limit.message, rate_limit := some limit })
      { sections_cached := sortStrings (cached.map (fun p => p.1)),
        served_from_cache :=
          some (!(cached.map (fun p => p.1)).isEmpty && missing.isEmpty) },
    state := st1, ctorCalled := false, attrsRead := [], historyCalled := false }

/-- The early-return bundle when `ticker_cls(ticker)` itself raises:
captured error detail (recording a qualifying rate limit), sections from
cache hits or empty. -/
def ctorFailResult (cfg : Config) (cached : List (String × PyVal))
    (st1 : CacheState) (missing : List String) (exc : ExcInfo) (now : Int) :
    FetchResult :=
  let d := capture_error_details exc now
  let dst : ErrorDetails × CacheState :=
    match d.rate_limit with
    | some rl =>
      let r := record_rate_limit rl now st1.cooldowns
      ({ d with rate_limit := some r.1 }, { st1 with cooldowns := r.2 })
    | none => (d, st1)
  { bundle := bundleFromSections cached (dictGetD cached "buybacks" .vnone)
      (some dst.1)
      { sections_cached := sortStrings (cached.map (fun p => p.1)),
        served_from_cache := some missing.isEmpty,
        cache_disabled := some (!cache_enabled cfg) },
    state := dst.2, ctorCalled := true, attrsRead := [], historyCalled := false }

/-- The main path of `fetch_ticker_sections` once the client is available
(or not needed): the per-section loop, the trailing rate-limit record from
the first error, and the buyback derivation or cache unwrap. -/
def networkPhase (cfg : Config) (o : Oracle) (ticker : String) (now : Int)
    (cached : List (String × PyVal)) (st1 : CacheState)
    (needsNetwork ctorAttempted : Bool) : FetchResult :=
  let loopRes := sectionLoop cfg o ticker now core_section_names cached st1 none []
  let sections2 := loopRes.1
  let st2 := loopRes.2.1
  let err2 := loopRes.2.2.1
  let reads := loopRes.2.2.2
  let est : Option ErrorDetails × CacheState :=
    match err2 with
    | some d =>
      match d.rate_limit with
      | some rl =>
        let r := record_rate_limit rl now st2.cooldowns
        (some { d with rate_limit := some r.1 }, { st2 with cooldowns := r.2 })
      | none => (some d, st2)
    | none => (none, st2)
  let cinfo : CacheInfo :=
    { sections_cached := sortStrings (cached.map (fun p => p.1)),
      served_from_cache := some (!needsNetwork),
      cache_disabled := some (!cache_enabled cfg) }
  if sections2.any (fun p => p.1 == "buybacks") then
    let bbOut : PyVal :=
      match dictGetD sections2 "buybacks" .vnone with
      | .vdict xs => dictGetD xs "value" .vnone
      | v => v
    { bundle := bundleFromSections sections2 bbOut est.1 cinfo,
      state := est.2, ctorCalled := ctorAttempted, attrsRead := reads,
      historyCalled := false }
  else
    let bbOut : PyVal :=
      match detect_buybacks o (dictGetD sections2 "key_stats" (.vdict [])) with
      | some x => .vbool x
      | none => .vnone
    { bundle := bundleFromSections sections2 bbOut est.1 cinfo,
      state := set_cached_section cfg est.2 ticker "buybacks"
        (.vdict [("value", bbOut)]) now,
      ctorCalled := ctorAttempted, attrsRead := reads, historyCalled := true }

/-- Embedding of `data_access.fetch_ticker_sections(ticker, ticker_cls,
ticker_client)`.  `clientProvided` is true when a pre-built `ticker_client`
was passed; `o` describes the upstream behaviour of whichever client ends up
used; `now` is the instant of the call (`_utcnow()`; the random jitter sleep
is not observable here). -/
def fetch_ticker_sections (cfg : Config) (o : Oracle) (ticker : String)
    (clientProvided : Bool) (st0 : CacheState) (now : Int) : FetchResult :=
  let lk := cacheLookupPhase cfg st0 ticker now
  let cached := lk.1
  let st1 := lk.2
  if cfg.smoke then
    { bundle := smokeBundle ticker cached (cached.map (fun p => p.1)),
      state := st1, ctorCalled := false, attrsRead := [], historyCalled := false }
  else
    let missing := core_section_names.filter
      (fun s => !cached.any (fun p => p.1 == s))
    match active_rate_limit st1.cooldowns now, missing with
    | some limit, _ :: _ => rateLimitResult cached st1 missing limit
    | _, _ =>
      let needsNetwork := !missing.isEmpty || !(cached.any (fun p => p.1 == "buybacks"))
      let ctorAttempted := needsNetwork && !clientProvided
      let ctorFailure : Option ExcInfo :=
        if ctorAttempted then
          match o.ctor with
          | .ok _ => none
          | .error e => some e
        else none
      match ctorFailure with
      | some exc => ctorFailResult cfg cached st1 missing exc now
      | none => networkPhase cfg o ticker now cached st1 needsNetwork ctorAttempted

/-- The `symbols` attribute of a provider client as classified by
`validate_tickers`: a non-string iterable of items (each a string or not), a
string/bytes-like value, or something not iterable. -/
inductive SymItem where
  | sym (s : String)
  | nonStr
  deriving Repr

/-- See `SymItem`. -/
inductive SymbolsAttr where
  | iterable (items : List SymItem)
  | strLike (s : String)
  | notIterable
  deriving Repr

/-- The provider data `validate_tickers` reads inside its `try` block: the
`quote_type` attribute (`{}` when absent, i.e. `mapObj []`) and the
`symbols` attribute. -/
structure ProviderData where
  quote_type : SectionObj
  symbols : SymbolsAttr

/-- `available_symbols`: the uppercased string entries of `symbols` when it
is a non-string iterable, else `[]`. -/
def availableSymbols : SymbolsAttr → List String
  | .iterable items => items.filterMap
      (fun i => match i with | .sym s => some (pyUpper s) | .nonStr => none)
  | .strLike _ => []
  | .notIterable => []

/-- The normalization pass of `validate_tickers`: drop falsy (empty)
entries, uppercase, deduplicate preserving first-seen order (`seen` is the
set of results so far). -/
def normalizeAux (seen : List String) : List String → List String
  | [] => []
  | t :: ts =>
    if t = "" then normalizeAux seen ts
    else
      let u := pyUpper t
      if seen.contains u then normalizeAux seen ts
      else u :: normalizeAux (u :: seen) ts

/-- `normalized` as computed by `validate_tickers`. -/
def normalizeTickers (inputs : List String) : List String := normalizeAux [] inputs

/-- `_add_symbol`: append the uppercased symbol unless already recorded
(`seen_validated` always mirrors the result list). -/
def addValidated (validated : List String) (u : String) : List String :=
  if validated.contains u then validated else validated ++ [u]

/-- The per-normalized-ticker confirmation loop of `validate_tickers`.  The
canonical symbol is `section.get("symbol") or section.get("underlyingSymbol")
or ticker`; when that Python `or`-chain produces a non-string,
`canonical.upper()` raises an uncaught `AttributeError`, modelled as
`Except.error`. -/
def validateLoop1 (qt : SectionObj) (available : List String) :
    List String → List String → Except Unit (List String)
  | validated, [] => .ok validated
  | validated, t :: ts =>
    let sec := safe_section qt t
    if sec.isEmpty then
      if available.contains t then
        validateLoop1 qt available (addValidated validated (pyUpper t)) ts
      else validateLoop1 qt available validated ts
    else
      let c1 := dictGetD sec "symbol" .vnone
      let chosen :=
        if pyTruthy c1 then c1
        else
          let c2 := dictGetD sec "underlyingSymbol" .vnone
          if pyTruthy c2 then c2 else .vstr t
      match chosen with
      | .vstr s => validateLoop1 qt available (addValidated validated (pyUpper s)) ts
      | _ => .error ()

/-- The reconciliation pass of `validate_tickers`: append advertised symbols
not yet captured, but only when they belong to the requested batch or no
symbols were confirmed yet (`not validated` re-evaluated as the list
grows). -/
def validateLoop2 (normalized : List String) :
    List String → List String → List String
  | validated, [] => validated
  | validated, s :: rest =>
    if !validated.contains s ∧ (normalized.contains s ∨ validated.isEmpty) then
      validateLoop2 normalized (addValidated validated (pyUpper s)) rest
    else validateLoop2 normalized validated rest

/-- Embedding of `data_access.validate_tickers(tickers, ticker_cls)`.
`provider` is `none` when the client constructor or either attribute access
raises (the `except` returns the normalized list unchanged — fail open);
`vcache` is the `VALIDATE_TICKER_CACHE` entry for this (class, normalized)
key, consulted only when caching is enabled.  `Except.error` models the
uncaught `AttributeError` of a non-string canonical symbol. -/
def validate_tickers (cfg : Config) (inputs : List String)
    (provider : Option ProviderData) (vcache : Option (List String)) :
    Except Unit (List String) :=
  let normalized := normalizeTickers inputs
  if normalized.isEmpty then .ok []
  else if cfg.smoke then .ok normalized
  else
    match (if cache_enabled cfg then vcache else none) with
    | some cachedResult => .ok cachedResult
    | none =>
      match provider with
      | none => .ok normalized
      | some pd =>
        let available := availableSymbols pd.symbols
        match validateLoop1 pd.quote_type available [] normalized with
        | .error e => .error e
        | .ok validated =>
          .ok (if !available.isEmpty ∧ validated.length < available.length then
                 validateLoop2 normalized validated available
               else validated)

/-- Exceptions of the metrics module: `ValueError` (with its message) as
raised by the validators, and `AttributeError` for a `.get` on a
non-mapping. -/
inductive MetricsExc where
  | valueError (msg : String)
  | attributeError
  deriving Repr, DecidableEq

/-- `v is None`. -/
def isVNone : PyVal → Bool
  | .vnone => true
  | _ => false

/-- Extract `sections.get(name, {})` as a mapping; a non-mapping value makes
the subsequent `.get` raise `AttributeError`. -/
def getSec (sections : List (String × PyVal)) (name : String) :
    Except MetricsExc (List (String × PyVal)) :=
  match dictGetD sections name (.vdict []) with
  | .vdict xs => .ok xs
  | _ => .error .attributeError

/-- `", ".join(l)`. -/
def joinComma (l : List String) : String := String.intercalate ", " l

/-- Embedding of `metrics.validate_metrics`: raise `ValueError` when the
mapping is empty or every value is `None`, else pass it through. -/
def validate_metrics (metrics : List (String × PyVal)) (ticker : String) :
    Except MetricsExc (List (String × PyVal)) :=
  if metrics.isEmpty || metrics.all (fun p => isVNone p.2) then
    .error (.valueError ("No metrics available for " ++ ticker))
  else .ok metrics

/-- Embedding of `metrics.ensure_data_available(ticker, sections, metrics)`
as the source under `src/` implements it: it raises (returns `.error`) when
any section is falsy, when every metric is `None`, and also when any of the
three critical fields is `None` — reading market cap from `key_stats` only.
Success returns `()` (Python `None`). -/
def ensure_data_available (ticker : String) (sections : List (String × PyVal))
    (metrics : List (String × PyVal)) : Except MetricsExc Unit :=
  let missing := (sections.filter (fun p => !pyTruthy p.2)).map (fun p => p.1)
  if !missing.isEmpty then
    .error (.valueError ("No data found for " ++ ticker ++
      ": missing sections " ++ joinComma missing ++ "."))
  else if !(metrics.any (fun p => !isVNone p.2)) then
    .error (.valueError ("No metrics available for " ++ ticker ++
      " from Yahoo Finance."))
  else
    match getSec sections "key_stats", getSec sections "financial_data" with
    | .ok ks, .ok fin =>
      let critical : List (String × PyVal) :=
        [("market cap", dictGetD ks "marketCap" .vnone),
         ("total revenue", dictGetD fin "totalRevenue" .vnone),
         ("total debt", dictGetD fin "totalDebt" .vnone)]
      let missingF := (critical.filter (fun p => isVNone p.2)).map (fun p => p.1)
      if !missingF.isEmpty then
        .error (.valueError ("Missing required fields for " ++ ticker ++
          ": " ++ joinComma missingF ++ "."))
      else .ok ()
    | .error e, _ => .error e
    | _, .error e => .error e

/-- The metrics mapping `compute_metrics` assembles before validation, given
the three extracted section mappings and the bundle. -/
def buildMetrics (sections : List (String × PyVal))
    (summary financial key_stats : List (String × PyVal)) :
    List (String × PyVal) :=
  let total_revenue_val := dictGetD financial "totalRevenue" .vnone
  let shares_outstanding_val := dictGetD key_stats "sharesOutstanding" .vnone
  let operating_cashflow := dictGetD financial "operatingCashflow" .vnone
  let cashflow_per_share : PyVal :=
    if pyIsNum operating_cashflow ∧ pyIsNum shares_outstanding_val ∧
        pyNumVal shares_outstanding_val ≠ 0 then
      .vnum (pyNumVal operating_cashflow / pyNumVal shares_outstanding_val)
    else .vnone
  let sales0 := dictGetD key_stats "revenuePerShare" .vnone
  let sales_per_share : PyVal :=
    if isVNone sales0 ∧ pyIsNum total_revenue_val ∧
        pyIsNum shares_outstanding_val ∧ pyNumVal shares_outstanding_val ≠ 0 then
      .vnum (pyNumVal total_revenue_val / pyNumVal shares_outstanding_val)
    else sales0
  let fcf0 := dictGetD financial "freeCashflow" .vnone
  let free_cash_flow : PyVal :=
    if pyIsNum fcf0 then .vnum (pyNumVal fcf0 / 10 ^ 9) else fcf0
  let peg_ratio := dictGetD key_stats "pegRatio" (dictGetD summary "pegRatio" .vnone)
  [("Net Profit Margin (%)", dictGetD financial "profitMargins" .vnone),
   ("ROE (%)", dictGetD financial "returnOnEquity" .vnone),
   ("P/E Ratio", dictGetD summary "trailingPE" .vnone),
   ("P/B Ratio", dictGetD summary "priceToBook" .vnone),
   ("P/S Ratio", dictGetD summary "priceToSalesTrailing12Months" .vnone),
   ("Dividend Yield (%)", dictGetD summary "dividendYield" .vnone),
   ("Current Ratio", dictGetD financial "currentRatio" .vnone),
   ("Quick Ratio", dictGetD financial "quickRatio" .vnone),
   ("Cash Flow/Share", cashflow_per_share),
   ("Sales/Share", sales_per_share),
   ("4 Yr Sales Growth (%)", dictGetD financial "revenueGrowth" .vnone),
   ("4 Yr EPS Growth (%)", dictGetD financial "earningsGrowth" .vnone),
   ("Operating Margin (%)", dictGetD financial "operatingMargins" .vnone),
   ("Debt/Equity", dictGetD financial "debtToEquity" .vnone),
   ("Free Cash Flow", free_cash_flow),
   ("EBITDA Margin (%)", dictGetD financial "ebitdaMargins" .vnone),
   ("Return on Assets (%)", dictGetD financial "returnOnAssets" .vnone),
   ("EV / EBITDA", dictGetD key_stats "enterpriseToEbitda" .vnone),
   ("PEG Ratio", peg_ratio),
   ("Insider Ownership (%)", dictGetD key_stats "heldPercentInsiders" .vnone),
   ("Buybacks", dictGetD sections "buybacks" .vnone)]

/-- Embedding of `metrics.compute_metrics(ticker, sections)`: extract the
three section mappings (any non-mapping raises `AttributeError` at its first
`.get`), assemble the metrics dict, and validate it. -/
def compute_metrics (ticker : String) (sections : List (String × PyVal)) :
    Except MetricsExc (List (String × PyVal)) :=
  match getSec sections "summary_detail" with
  | .error e => .error e
  | .ok summary =>
    match getSec sections "financial_data" with
    | .error e => .error e
    | .ok financial =>
      match getSec sections "key_stats" with
      | .error e => .error e
      | .ok key_stats =>
        validate_metrics (buildMetrics sections summary financial key_stats) ticker

/-- Spec-side formulation of the normalization pass (for the refinement in
claim C7): drop blank entries, uppercase, and deduplicate preserving
first-seen order, here by removing later occurrences recursively. -/
def dedupFirst : List String → List String
  | [] => []
  | x :: xs => x :: dedupFirst (xs.filter (fun y => y != x))
termination_by l => l.length
decreasing_by
  simpa using Nat.lt_succ_of_le (List.length_filter_le _ _)

/-- Project a core section of a bundle by name. -/
def bundleSection (b : Bundle) (s : String) : PyVal :=
  if s = "summary_detail" then b.summary_detail
  else if s = "financial_data" then b.financial_data
  else if s = "asset_profile" then b.asset_profile
  else if s = "key_stats" then b.key_stats
  else if s = "quote_type" then b.quote_type
  else if s = "price" then b.price
  else .vnone

/-- A fresh process state: empty section cache, no cooldowns. -/
def emptyCacheState : CacheState :=
  { cache := fun _ => none, cooldowns := [] }

/-- The sections of the C1 scenario (spec: "partial data with fallback"):
all six core sections non-empty, `key_stats.marketCap` null but
`price.marketCap` present, revenue and debt present. -/
def c1_sections : List (String × PyVal) :=
  [("summary_detail", .vdict [("trailingPE", .vnum 21)]),
   ("financial_data", .vdict [("totalRevenue", .vnum (10 ^ 10)),
                              ("totalDebt", .vnum (5 * 10 ^ 9))]),
   ("asset_profile", .vdict [("industry", .vstr "Tech")]),
   ("key_stats", .vdict [("marketCap", .vnone)]),
   ("quote_type", .vdict [("symbol", .vstr "AAPL")]),
   ("price", .vdict [("shortName", .vstr "Test"),
                     ("marketCap", .vnum (35 * 10 ^ 8))])]

/-- Concrete summary section for the C8 witness. -/
def c8_summary : List (String × PyVal) := [("trailingPE", .vnum 30)]

/-- Concrete financial section for the C8 witness. -/
def c8_financial : List (String × PyVal) :=
  [("operatingCashflow", .vnum 10), ("freeCashflow", .vnum (2 * 10 ^ 9)),
   ("totalRevenue", .vnum 50)]

/-- Concrete key-stats section for the C8 witness. -/
def c8_key_stats : List (String × PyVal) := [("sharesOutstanding", .vnum 4)]

/-- Concrete bundle for the C8 witness. -/
def c8_sections : List (String × PyVal) :=
  [("summary_detail", .vdict c8_summary), ("financial_data", .vdict c8_financial),
   ("key_stats", .vdict c8_key_stats), ("buybacks", .vbool true)]

/-- Invariant of every symbol list the Ticker Validator builds: no
duplicates, and every entry is fixed by uppercasing (so the list also has no
case-insensitive duplicates). -/
def upperNodup (l : List String) : Prop := l.Nodup ∧ ∀ x ∈ l, pyUpper x = x

/-- The configuration of the C4 witness (cache disabled, no smoke mode). -/
def c4_cfg : Config := { smoke := false, cacheDisabledEnv := true }

/-- The oracle of the C4 witness: a live client that must never be used. -/
def c4_oracle : Oracle := ⟨.ok (), fun _ => .ok .otherObj, .error ()⟩

/-- The process state of the C4 witness: empty cache, one cooldown expiring
30 seconds in the future. -/
def c4_state : CacheState :=
  { cache := fun _ => none, cooldowns := [("query1.finance.yahoo.com", 30)] }

/-- The active rate-limit record the C4 witness expects. -/
def c4_limit : RateLimitError :=
  { status_code := none, message := "Rate limit active", retry_after := some 30,
    headers := [], host := some "query1.finance.yahoo.com", payload := .vnone,
    remaining := some 30 }

/-- The default configuration of the C3 witness (caching enabled, default
TTLs). -/
def c3_cfg : Config := { smoke := false, cacheDisabledEnv := false }

/-- Provider-section objects of the C3 witness. -/
def c3_objs : String → SectionObj := fun _ => SectionObj.otherObj

/-- A fully successful upstream oracle for the C3 witness (history fails,
which only affects the buybacks derivation). -/
def c3_oracle : Oracle := ⟨.ok (), fun k => .ok (c3_objs k), .error ()⟩

/-- A cache holding a fresh `price` entry for AAPL (expiry 100, content a
one-field mapping). -/
def c3_state : CacheState :=
  { cache := fun k => if k = ("AAPL", "price")
      then some (100, PyVal.vdict [("regularMarketPrice", PyVal.vnum 5)])
      else none,
    cooldowns := [] }

/-- A cache holding fresh entries for all seven requested sections of AAPL:
the six core sections as empty mappings and the wrapped buybacks value
`{"value": True}`. -/
def c10_state : CacheState :=
  { cache := fun k =>
      if k = ("AAPL", "buybacks")
        then some (50, PyVal.vdict [("value", PyVal.vbool true)])
      else if k.1 = "AAPL" ∧ k.2 ∈ core_section_names
        then some (50, PyVal.vdict [])
      else none,
    cooldowns := [] }

/-- The exception raised by the upstream provider in the C2 witness. -/
def c2_exc : ExcInfo := { msg := "boom" }

/-! ### General lemmas -/

theorem charToNat_ofNat {n : Nat} (h : n.isValidChar) : (Char.ofNat n).toNat = n := by
  rw [Char.ofNat, dif_pos h]
  rfl

theorem pyUpperChar_idem (c : Char) : pyUpperChar (pyUpperChar c) = pyUpperChar c := by
  unfold pyUpperChar
  by_cases h : 97 ≤ c.toNat ∧ c.toNat ≤ 122
  · rw [if_pos h]
    have hv : (c.toNat - 32).isValidChar := Or.inl (by omega)
    have ht : (Char.ofNat (c.toNat - 32)).toNat = c.toNat - 32 := charToNat_ofNat hv
    rw [if_neg]
    omega
  · rw [if_neg h, if_neg h]

theorem pyUpper_idem (s : String) : pyUpper (pyUpper s) = pyUpper s := by
  unfold pyUpper
  simp [List.map_map, Function.comp_def, pyUpperChar_idem]

theorem updateCooldown_mem (cds : List (String × Int)) (host : String) (t : Int) :
    (host, t) ∈ updateCooldown cds host t := by
  unfold updateCooldown
  by_cases h : cds.any (fun p => p.1 == host)
  · rw [if_pos h]
    obtain ⟨p, hp, hbeq⟩ := List.any_eq_true.mp h
    have hpe : p.1 = host := by simpa using hbeq
    have : (host, t) = (fun p : String × Int => if p.1 == host then (p.1, t) else p) p := by
      simp [hpe]
    rw [this]
    exact List.mem_map_of_mem _ hp
  · rw [if_neg h]
    exact List.mem_append_right _ (List.mem_singleton.mpr rfl)

theorem foldl_soonest_pos (now : Int) :
    ∀ (cds : List (String × Int)) (acc : Option (String × Int)),
      (∀ q, acc = some q → now < q.2) →
      ∀ q, cds.foldl (soonestStep now) acc = some q → now < q.2 := by
  intro cds
  induction cds with
  | nil => intro acc hacc q hq; exact hacc q (by simpa using hq)
  | cons p rest ih =>
    intro acc hacc q hq
    rw [List.foldl_cons] at hq
    refine ih (soonestStep now acc p) ?_ q hq
    intro r hr
    unfold soonestStep at hr
    split at hr
    case isTrue hcond =>
      cases hr
      exact hcond.1
    case isFalse hcond =>
      exact hacc r hr

theorem foldl_soonest_mono (now : Int) :
    ∀ (cds : List (String × Int)) (q0 : String × Int),
      ∃ q, cds.foldl (soonestStep now) (some q0) = some q ∧ q.2 ≤ q0.2 := by
  intro cds
  induction cds with
  | nil => intro q0; exact ⟨q0, by simp, le_refl _⟩
  | cons p rest ih =>
    intro q0
    rw [List.foldl_cons]
    by_cases hc : p.2 > now ∧
        (match some q0 with | none => true | some q => decide (p.2 < q.2)) = true
    · have hstep : soonestStep now (some q0) p = some p := by
        unfold soonestStep; rw [if_pos hc]
      rw [hstep]
      obtain ⟨q, hq, hle⟩ := ih p
      have hlt : p.2 < q0.2 := by
        have := hc.2
        simpa using this
      exact ⟨q, hq, le_trans hle (le_of_lt hlt)⟩
    · have hstep : soonestStep now (some q0) p = some q0 := by
        unfold soonestStep; rw [if_neg hc]
      rw [hstep]
      exact ih q0

theorem foldl_soonest_le (now : Int) :
    ∀ (cds : List (String × Int)) (acc : Option (String × Int)) (p : String × Int),
      p ∈ cds → now < p.2 →
      ∃ q, cds.foldl (soonestStep now) acc = some q ∧ q.2 ≤ p.2 := by
  intro cds
  induction cds with
  | nil => intro acc p hp; cases hp
  | cons x rest ih =>
    intro acc p hp hpos
    rcases List.mem_cons.mp hp with heq | hmem
    · subst heq
      rw [List.foldl_cons]
      by_cases hc : p.2 > now ∧
          (match acc with | none => true | some q => decide (p.2 < q.2)) = true
      · have hstep : soonestStep now acc p = some p := by
          unfold soonestStep; rw [if_pos hc]
        rw [hstep]
        exact foldl_soonest_mono now rest p
      · have hstep : soonestStep now acc p = acc := by
          unfold soonestStep; rw [if_neg hc]
        rw [hstep]
        cases acc with
        | none => exact absurd ⟨hpos, rfl⟩ hc
        | some q0 =>
          have hq0 : q0.2 ≤ p.2 := by
            by_contra hlt
            push_neg at hlt
            exact hc ⟨hpos, by simpa using hlt⟩
          obtain ⟨q, hq, hle⟩ := foldl_soonest_mono now rest q0
          exact ⟨q, hq, le_trans hle hq0⟩
    · rw [List.foldl_cons]
      exact ih (soonestStep now acc x) p hmem hpos

theorem findRetryAfterHeader_cons_hit (k : String) (v : HVal)
    (hs : List (String × HVal)) (h : pyLower k = "retry-after") :
    findRetryAfterHeader ((k, v) :: hs) = some v := by
  unfold findRetryAfterHeader
  rw [List.find?_cons_of_pos]
  · rfl
  · simpa using h

theorem ratTrunc_intCast (n : Int) : ratTrunc ((n : ℚ)) = n := by
  unfold ratTrunc
  rw [Rat.num_intCast, Rat.den_intCast]
  exact_mod_cast Int.tdiv_one n

theorem pyTruthy_vnum_intCast (n : Int) : pyTruthy (.vnum (n : ℚ)) = decide (n ≠ 0) := by
  unfold pyTruthy
  by_cases h : n = 0 <;> simp [h]

theorem upperNodup_nil : upperNodup [] := ⟨List.nodup_nil, by simp⟩

theorem upperNodup_addValidated {l : List String} {u : String}
    (hl : upperNodup l) (hu : pyUpper u = u) : upperNodup (addValidated l u) := by
  unfold addValidated
  by_cases hc : l.contains u
  · rw [if_pos hc]
    exact hl
  · rw [if_neg hc]
    have hmem : u ∉ l := by
      intro hm
      exact hc (List.contains_iff_exists_mem_beq.mpr ⟨u, hm, by simp⟩)
    constructor
    · rw [List.nodup_append]
      refine ⟨hl.1, List.nodup_singleton u, ?_⟩
      intro a ha hb
      rw [List.mem_singleton] at hb
      subst hb
      exact hmem ha
    · intro x hx
      rcases List.mem_append.mp hx with h1 | h2
      · exact hl.2 x h1
      · rw [List.mem_singleton] at h2
        subst h2
        exact hu

theorem upperNodup_map_pyUpper {l : List String} (h : upperNodup l) :
    (l.map pyUpper).Nodup := by
  have he : l.map pyUpper = l.map id := List.map_congr_left (fun a ha => h.2 a ha)
  rw [he, List.map_id]
  exact h.1

theorem normalizeAux_spec : ∀ (ts seen : List String),
    (∀ x ∈ normalizeAux seen ts, pyUpper x = x ∧ seen.contains x = false) ∧
    (normalizeAux seen ts).Nodup := by
  intro ts
  induction ts with
  | nil => intro seen; simp [normalizeAux]
  | cons t rest ih =>
    intro seen
    by_cases ht : t = ""
    · simp only [normalizeAux, if_pos ht]
      exact ih seen
    · simp only [normalizeAux, if_neg ht]
      by_cases hm : seen.contains (pyUpper t)
      · rw [if_pos hm]
        exact ih seen
      · rw [if_neg hm]
        obtain ⟨ihP, ihN⟩ := ih (pyUpper t :: seen)
        constructor
        · intro x hx
          rcases List.mem_cons.mp hx with rfl | hx2
          · exact ⟨pyUpper_idem t, by simpa using hm⟩
          · obtain ⟨hfix, hnc⟩ := ihP x hx2
            refine ⟨hfix, ?_⟩
            rw [List.contains_cons, Bool.or_eq_false_iff] at hnc
            exact hnc.2
        · refine List.nodup_cons.mpr ⟨?_, ihN⟩
          intro hmem
          obtain ⟨_, hnc⟩ := ihP _ hmem
          rw [List.contains_cons, Bool.or_eq_false_iff] at hnc
          simp at hnc

theorem normalizeTickers_upperNodup (inputs : List String) :
    upperNodup (normalizeTickers inputs) :=
  ⟨(normalizeAux_spec inputs []).2,
   fun x hx => ((normalizeAux_spec inputs []).1 x hx).1⟩

theorem normalizeAux_eq_dedupFirst : ∀ (ts seen : List String),
    normalizeAux seen ts =
      dedupFirst (((ts.filter (fun t => t != "")).map pyUpper).filter
        (fun u => !seen.contains u)) := by
  intro ts
  induction ts with
  | nil => intro seen; simp [normalizeAux, dedupFirst]
  | cons t rest ih =>
    intro seen
    by_cases ht : t = ""
    · have hf : (t :: rest).filter (fun t => t != "") =
          rest.filter (fun t => t != "") := by
        simp [ht]
      simp only [normalizeAux, if_pos ht, hf]
      exact ih seen
    · have hf : (t :: rest).filter (fun t => t != "") =
          t :: rest.filter (fun t => t != "") := by
        simp [ht]
      simp only [normalizeAux, if_neg ht, hf, List.map_cons]
      by_cases hm : seen.contains (pyUpper t)
      · rw [if_pos hm]
        have hm2 : pyUpper t ∈ seen := by simpa using hm
        have hdrop : ((pyUpper t :: (rest.filter (fun t => t != "")).map pyUpper).filter
            (fun u => !seen.contains u)) =
            ((rest.filter (fun t => t != "")).map pyUpper).filter
              (fun u => !seen.contains u) := by
          simp [List.filter_cons, hm2]
        rw [hdrop]
        exact ih seen
      · rw [if_neg hm]
        have hm2 : pyUpper t ∉ seen := by simpa using hm
        have hkeep : ((pyUpper t :: (rest.filter (fun t => t != "")).map pyUpper).filter
            (fun u => !seen.contains u)) =
            pyUpper t :: ((rest.filter (fun t => t != "")).map pyUpper).filter
              (fun u => !seen.contains u) := by
          simp [List.filter_cons, hm2]
        rw [hkeep]
        simp only [dedupFirst]
        congr 1
        rw [List.filter_filter]
        rw [ih (pyUpper t :: seen)]
        congr 1
        apply List.filter_congr
        intro a ha
        rw [List.contains_cons, Bool.not_or, bne]

theorem validateLoop1_upperNodup (qt : SectionObj) (av : List String) :
    ∀ (ts validated : List String), upperNodup validated →
      ∀ v, validateLoop1 qt av validated ts = .ok v → upperNodup v := by
  intro ts
  induction ts with
  | nil =>
    intro validated h v hv
    simp only [validateLoop1] at hv
    cases hv
    exact h
  | cons t rest ih =>
    intro validated h v hv
    simp only [validateLoop1] at hv
    split at hv
    · split at hv
      · exact ih _ (upperNodup_addValidated h (pyUpper_idem _)) v hv
      · exact ih _ h v hv
    · split at hv
      · exact ih _ (upperNodup_addValidated h (pyUpper_idem _)) v hv
      · exact Except.noConfusion hv

theorem validateLoop2_upperNodup (normalized : List String) :
    ∀ (syms validated : List String), upperNodup validated →
      upperNodup (validateLoop2 normalized validated syms) := by
  intro syms
  induction syms with
  | nil => intro validated h; exact h
  | cons s rest ih =>
    intro validated h
    simp only [validateLoop2]
    split
    · exact ih _ (upperNodup_addValidated h (pyUpper_idem _))
    · exact ih _ h

theorem find?_key_append_left {l₁ l₂ : List (String × PyVal)}
    {p : String × PyVal → Bool} {r : String × PyVal}
    (h : l₁.find? p = some r) : (l₁ ++ l₂).find? p = some r := by
  rw [List.find?_append, h]
  rfl

theorem get_cached_section_empty (cfg : Config) (t n : String) (now : Int) :
    get_cached_section cfg emptyCacheState t n now = (none, emptyCacheState) := by
  unfold get_cached_section
  split
  · rfl
  · rfl

theorem get_cached_section_hit {cfg : Config} {st : CacheState} {t s : String}
    {now e : Int} {p : PyVal} (hce : cache_enabled cfg = true)
    (hc : st.cache (t, s) = some (e, p)) (hlt : now < e) :
    get_cached_section cfg st t s now = (some p, st) := by
  unfold get_cached_section
  rw [if_neg (by simp [hce]), hc]
  simp [hlt]

theorem get_cached_section_cache_preserve (cfg : Config) (st : CacheState)
    (t n : String) (now : Int) (s : String) (hne : n ≠ s) :
    ((get_cached_section cfg st t n now).2).cache (t, s) = st.cache (t, s) := by
  unfold get_cached_section
  split
  · rfl
  · rcases hm : st.cache (t, n) with _ | ⟨e, p⟩
    · rfl
    · by_cases h2 : now < e
      · simp [h2]
      · simp only [h2, if_false]
        rw [if_neg]
        intro hEq
        cases hEq
        exact hne rfl

theorem set_cached_section_same {cfg : Config} (st : CacheState) (t n : String)
    (payload : PyVal) (now : Int) (hce : cache_enabled cfg = true) :
    (set_cached_section cfg st t n payload now).cache (t, n) =
      some (now + section_ttl_seconds cfg n, payload) := by
  unfold set_cached_section
  rw [if_neg (by simp [hce])]
  simp

theorem set_cached_section_other (cfg : Config) (st : CacheState) (t n : String)
    (payload : PyVal) (now : Int) (k : String × String) (hk : k ≠ (t, n)) :
    (set_cached_section cfg st t n payload now).cache k = st.cache k := by
  unfold set_cached_section
  split
  · rfl
  · simp only
    rw [if_neg hk]

theorem cacheLookupFold_find_preserved (cfg : Config) (ticker : String) (now : Int) :
    ∀ (names : List String) (acc : List (String × PyVal)) (st : CacheState)
      (pred : String × PyVal → Bool) (r : String × PyVal),
      acc.find? pred = some r →
      ((names.foldl (cacheLookupStep cfg ticker now) (acc, st)).1).find? pred = some r := by
  intro names
  induction names with
  | nil => intro acc st pred r h; simpa using h
  | cons n rest ih =>
    intro acc st pred r h
    rw [List.foldl_cons]
    rcases hg : get_cached_section cfg st ticker n now with ⟨opt, st2⟩
    cases opt with
    | some q =>
      have hstep : cacheLookupStep cfg ticker now (acc, st) n = (acc ++ [(n, q)], st2) := by
        unfold cacheLookupStep
        rw [hg]
      rw [hstep]
      refine ih _ _ _ _ ?_
      rw [List.find?_append, h]
      rfl
    | none =>
      have hstep : cacheLookupStep cfg ticker now (acc, st) n = (acc, st2) := by
        unfold cacheLookupStep
        rw [hg]
      rw [hstep]
      exact ih _ _ _ _ h

theorem cacheLookupFold_find {cfg : Config} {ticker : String} {now : Int}
    {s : String} {e : Int} {p : PyVal} (hce : cache_enabled cfg = true) :
    ∀ (names : List String) (acc : List (String × PyVal)) (st : CacheState),
      st.cache (ticker, s) = some (e, p) → now < e → s ∈ names →
      acc.find? (fun q => q.1 == s) = none →
      ((names.foldl (cacheLookupStep cfg ticker now) (acc, st)).1).find?
        (fun q => q.1 == s) = some (s, p) := by
  intro names
  induction names with
  | nil => intro _ _ _ _ hmem _; cases hmem
  | cons n rest ih =>
    intro acc st hc hlt hmem hnone
    rw [List.foldl_cons]
    by_cases heq : n = s
    · subst heq
      have hstep : cacheLookupStep cfg ticker now (acc, st) n = (acc ++ [(n, p)], st) := by
        unfold cacheLookupStep
        rw [get_cached_section_hit hce hc hlt]
      rw [hstep]
      apply cacheLookupFold_find_preserved
      rw [List.find?_append, hnone, Option.none_or]
      rw [List.find?_cons_of_pos _ (by simp)]
    · have hmem2 : s ∈ rest := by
        rcases List.mem_cons.mp hmem with h | h
        · exact absurd h.symm heq
        · exact h
      rcases hg : get_cached_section cfg st ticker n now with ⟨opt, st2⟩
      have hc2 : st2.cache (ticker, s) = some (e, p) := by
        have hpre := get_cached_section_cache_preserve cfg st ticker n now s heq
        rw [hg] at hpre
        exact hpre.trans hc
      cases opt with
      | some q =>
        have hstep : cacheLookupStep cfg ticker now (acc, st) n = (acc ++ [(n, q)], st2) := by
          unfold cacheLookupStep
          rw [hg]
        rw [hstep]
        refine ih _ st2 hc2 hlt hmem2 ?_
        rw [List.find?_append, hnone, Option.none_or]
        rw [List.find?_cons_of_neg _ (by simp [heq])]
        rfl
      | none =>
        have hstep : cacheLookupStep cfg ticker now (acc, st) n = (acc, st2) := by
          unfold cacheLookupStep
          rw [hg]
        rw [hstep]
        exact ih _ st2 hc2 hlt hmem2 hnone

theorem cacheLookupPhase_empty (cfg : Config) (t : String) (now : Int) :
    cacheLookupPhase cfg emptyCacheState t now = ([], emptyCacheState) := by
  have hstep : ∀ n, cacheLookupStep cfg t now ([], emptyCacheState) n =
      ([], emptyCacheState) := by
    intro n
    unfold cacheLookupStep
    rw [get_cached_section_empty]
  unfold cacheLookupPhase requested_sections core_section_names
  simp only [List.cons_append, List.nil_append, List.foldl_cons, List.foldl_nil, hstep]

theorem sectionLoop_skip (cfg : Config) (o : Oracle) (ticker : String) (now : Int)
    (s : String) (r : String × PyVal) :
    ∀ (keys : List String) (sections : List (String × PyVal)) (st : CacheState)
      (err : Option ErrorDetails) (reads : List String),
      sections.find? (fun q => q.1 == s) = some r →
      ((sectionLoop cfg o ticker now keys sections st err reads).1.find?
          (fun q => q.1 == s) = some r) ∧
      (s ∉ reads → s ∉ (sectionLoop cfg o ticker now keys sections st err reads).2.2.2) := by
  intro keys
  induction keys with
  | nil =>
    intro sections st err reads h
    exact ⟨by simpa [sectionLoop] using h, fun h2 => by simpa [sectionLoop] using h2⟩
  | cons key rest ih =>
    intro sections st err reads h
    simp only [sectionLoop]
    by_cases hin : sections.any (fun p => p.1 == key)
    · rw [if_pos hin]
      exact ih sections st err reads h
    · rw [if_neg hin]
      have hks : key ≠ s := by
        intro heq
        subst heq
        exact absurd (List.any_eq_true.mpr
          ⟨r, List.mem_of_find?_eq_some h, List.find?_some h⟩) hin
      have hfind2 : ∀ v : PyVal, (sections ++ [(key, v)]).find?
          (fun q => q.1 == s) = some r := by
        intro v
        exact find?_key_append_left h
      have hreads2 : ∀ hnr : s ∉ reads, s ∉ reads ++ [key] := by
        intro hnr hmem
        rcases List.mem_append.mp hmem with h3 | h3
        · exact hnr h3
        · rw [List.mem_singleton] at h3
          exact hks h3.symm
      cases ho : o.sectionAttr key with
      | ok obj =>
        exact ⟨(ih _ _ _ _ (hfind2 _)).1, fun hnr => (ih _ _ _ _ (hfind2 _)).2 (hreads2 hnr)⟩
      | error exc =>
        exact ⟨(ih _ _ _ _ (hfind2 _)).1, fun hnr => (ih _ _ _ _ (hfind2 _)).2 (hreads2 hnr)⟩

theorem sectionLoop_allError (cfg : Config) (o : Oracle) (ticker : String)
    (now : Int) (excs : String → ExcInfo) :
    ∀ (keys : List String) (sections : List (String × PyVal)) (st : CacheState)
      (err : Option ErrorDetails) (reads : List String),
      (∀ k ∈ keys, o.sectionAttr k = .error (excs k)) →
      (∀ k ∈ keys, sections.any (fun q => q.1 == k) = false) →
      keys.Nodup →
      ((sectionLoop cfg o ticker now keys sections st err reads).1 =
        sections ++ keys.map (fun k => (k, PyVal.vdict []))) ∧
      ((sectionLoop cfg o ticker now keys sections st err reads).2.2.2 = reads ++ keys) ∧
      (∀ d, err = some d →
        (sectionLoop cfg o ticker now keys sections st err reads).2.2.1 = some d) ∧
      (err = none → ∀ k krest, keys = k :: krest →
        ∃ d, (sectionLoop cfg o ticker now keys sections st err reads).2.2.1 = some d ∧
          d.message = (excs k).msg) := by
  intro keys
  induction keys with
  | nil =>
    intro sections st err reads _ _ _
    refine ⟨by simp [sectionLoop], by simp [sectionLoop], ?_, ?_⟩
    · intro d hd
      simpa [sectionLoop] using hd
    · intro _ k krest hk
      cases hk
  | cons key rest ih =>
    intro sections st err reads hfail hfresh hnd
    have hkey : o.sectionAttr key = .error (excs key) := hfail key (List.mem_cons_self _ _)
    have hin : sections.any (fun p => p.1 == key) = false :=
      hfresh key (List.mem_cons_self _ _)
    simp only [sectionLoop]
    rw [if_neg (by simp [hin]), hkey]
    have hfail2 : ∀ k ∈ rest, o.sectionAttr k = .error (excs k) :=
      fun k hk => hfail k (List.mem_cons_of_mem _ hk)
    have hfresh2 : ∀ k ∈ rest, (sections ++ [(key, PyVal.vdict [])]).any
        (fun q => q.1 == k) = false := by
      intro k hk
      rw [List.any_append]
      have h1 : sections.any (fun q => q.1 == k) = false :=
        hfresh k (List.mem_cons_of_mem _ hk)
      have h2 : key ≠ k := by
        intro heq
        subst heq
        exact (List.nodup_cons.mp hnd).1 hk
      simp [h1, h2]
    have hnd2 : rest.Nodup := (List.nodup_cons.mp hnd).2
    -- the recursion target, for either rate-limit branch of the step
    have hbody := fun st' err' => ih (sections ++ [(key, PyVal.vdict [])]) st' err'
      (reads ++ [key]) hfail2 hfresh2 hnd2
    rcases hrl : (capture_error_details (excs key) now).rate_limit with _ | rl
    all_goals
      simp only [hrl]
    · refine ⟨?_, ?_, ?_, ?_⟩
      · rw [(hbody _ _).1]
        simp
      · rw [(hbody _ _).2.1]
        simp
      · intro d hd
        subst hd
        exact (hbody _ _).2.2.1 d rfl
      · intro herr k krest hk
        injection hk with hk1 _
        subst hk1
        subst herr
        refine ⟨_, (hbody _ _).2.2.1 _ rfl, rfl⟩
    · refine ⟨?_, ?_, ?_, ?_⟩
      · rw [(hbody _ _).1]
        simp
      · rw [(hbody _ _).2.1]
        simp
      · intro d hd
        subst hd
        exact (hbody _ _).2.2.1 d rfl
      · intro herr k krest hk
        injection hk with hk1 _
        subst hk1
        subst herr
        refine ⟨_, (hbody _ _).2.2.1 _ rfl, rfl⟩

theorem sectionLoop_allOk (cfg : Config) (o : Oracle) (ticker : String)
    (now : Int) (objs : String → SectionObj) :
    ∀ (keys : List String) (sections : List (String × PyVal)) (st : CacheState)
      (err : Option ErrorDetails) (reads : List String),
      (∀ k ∈ keys, o.sectionAttr k = .ok (objs k)) →
      (∀ k ∈ keys, sections.any (fun q => q.1 == k) = false) →
      keys.Nodup →
      ((sectionLoop cfg o ticker now keys sections st err reads).1 =
        sections ++ keys.map (fun k => (k, PyVal.vdict (safe_section (objs k) ticker)))) ∧
      ((sectionLoop cfg o ticker now keys sections st err reads).2.2.1 = err) ∧
      ((sectionLoop cfg o ticker now keys sections st err reads).2.2.2 = reads ++ keys) ∧
      (∀ k2 : String, (∀ k ∈ keys, k ≠ k2) →
        (sectionLoop cfg o ticker now keys sections st err reads).2.1.cache (ticker, k2) =
          st.cache (ticker, k2)) ∧
      (cache_enabled cfg = true → ∀ k ∈ keys,
        (sectionLoop cfg o ticker now keys sections st err reads).2.1.cache (ticker, k) =
          some (now + section_ttl_seconds cfg k,
            PyVal.vdict (safe_section (objs k) ticker))) := by
  intro keys
  induction keys with
  | nil =>
    intro sections st err reads _ _ _
    refine ⟨by simp [sectionLoop], by simp [sectionLoop], by simp [sectionLoop],
      fun k2 _ => by simp [sectionLoop], fun _ k hk => ?_⟩
    cases hk
  | cons key rest ih =>
    intro sections st err reads hok hfresh hnd
    have hkey : o.sectionAttr key = .ok (objs key) := hok key (List.mem_cons_self _ _)
    have hin : sections.any (fun p => p.1 == key) = false :=
      hfresh key (List.mem_cons_self _ _)
    have hstep : sectionLoop cfg o ticker now (key :: rest) sections st err reads =
        sectionLoop cfg o ticker now rest
          (sections ++ [(key, PyVal.vdict (safe_section (objs key) ticker))])
          (set_cached_section cfg st ticker key
            (PyVal.vdict (safe_section (objs key) ticker)) now) err (reads ++ [key]) := by
      simp only [sectionLoop]
      rw [if_neg (by simp [hin]), hkey]
    rw [hstep]
    have hok2 : ∀ k ∈ rest, o.sectionAttr k = .ok (objs k) :=
      fun k hk => hok k (List.mem_cons_of_mem _ hk)
    have hfresh2 : ∀ k ∈ rest,
        (sections ++ [(key, PyVal.vdict (safe_section (objs key) ticker))]).any
          (fun q => q.1 == k) = false := by
      intro k hk
      rw [List.any_append]
      have h1 : sections.any (fun q => q.1 == k) = false :=
        hfresh k (List.mem_cons_of_mem _ hk)
      have h2 : key ≠ k := by
        intro heq
        subst heq
        exact (List.nodup_cons.mp hnd).1 hk
      simp [h1, h2]
    have hnd2 : rest.Nodup := (List.nodup_cons.mp hnd).2
    obtain ⟨ha, hb, hc, hd, he⟩ := ih
      (sections ++ [(key, PyVal.vdict (safe_section (objs key) ticker))])
      (set_cached_section cfg st ticker key
        (PyVal.vdict (safe_section (objs key) ticker)) now) err (reads ++ [key])
      hok2 hfresh2 hnd2
    refine ⟨?_, hb, ?_, ?_, ?_⟩
    · rw [ha]
      simp
    · rw [hc]
      simp
    · intro k2 hk2
      rw [hd k2 (fun k hk => hk2 k (List.mem_cons_of_mem _ hk))]
      refine set_cached_section_other cfg st ticker key _ now (ticker, k2) ?_
      intro hEq
      cases hEq
      exact hk2 key (List.mem_cons_self _ _) rfl
    · intro hce k hk
      rcases List.mem_cons.mp hk with rfl | hk2
      · rw [hd k (fun k2 hk2 heq => (List.nodup_cons.mp hnd).1 (heq ▸ hk2))]
        exact set_cached_section_same st ticker k _ now hce
      · exact he hce k hk2

theorem dictGetD_of_find? {l : List (String × PyVal)} {s : String} {p : PyVal}
    (d : PyVal) (h : l.find? (fun q => q.1 == s) = some (s, p)) :
    dictGetD l s d = p := by
  unfold dictGetD dictGet
  rw [h]
  rfl

theorem lookupSectionD_of_find? {l : List (String × PyVal)} {s : String} {p : PyVal}
    (h : l.find? (fun q => q.1 == s) = some (s, p)) :
    lookupSectionD l s = p := by
  unfold lookupSectionD
  exact dictGetD_of_find? _ h

theorem any_of_find? {l : List (String × PyVal)} {s : String} {r : String × PyVal}
    (h : l.find? (fun q => q.1 == s) = some r) :
    l.any (fun q => q.1 == s) = true := by
  have hm := List.mem_of_find?_eq_some h
  have hp := @List.find?_some (String × PyVal) (fun q => q.1 == s) r l h
  exact List.any_eq_true.mpr ⟨r, hm, hp⟩

theorem bundleFromSections_section {secs : List (String × PyVal)} {bb : PyVal}
    {err : Option ErrorDetails} {ci : CacheInfo} {s : String}
    (hs : s ∈ core_section_names) :
    bundleSection (bundleFromSections secs bb err ci) s = lookupSectionD secs s := by
  fin_cases hs <;> rfl

theorem fetch_eq_rateLimitResult (cfg : Config) (o : Oracle) (ticker : String)
    (cp : Bool) (st0 : CacheState) (now : Int) (limit : RateLimitError)
    (hsm : cfg.smoke = false)
    (hact : active_rate_limit (cacheLookupPhase cfg st0 ticker now).2.cooldowns now =
      some limit)
    (hne : core_section_names.filter
        (fun s => !(cacheLookupPhase cfg st0 ticker now).1.any (fun p => p.1 == s)) ≠ []) :
    fetch_ticker_sections cfg o ticker cp st0 now =
      rateLimitResult (cacheLookupPhase cfg st0 ticker now).1
        (cacheLookupPhase cfg st0 ticker now).2
        (core_section_names.filter
          (fun s => !(cacheLookupPhase cfg st0 ticker now).1.any (fun p => p.1 == s)))
        limit := by
  obtain ⟨m, ms, hm⟩ := List.exists_cons_of_ne_nil hne
  simp only [fetch_ticker_sections, hsm, Bool.false_eq_true, if_false, hact, hm]

theorem fetch_eq_past_rateLimit (cfg : Config) (o : Oracle) (ticker : String)
    (cp : Bool) (st0 : CacheState) (now : Int)
    (hsm : cfg.smoke = false)
    (hbr : active_rate_limit (cacheLookupPhase cfg st0 ticker now).2.cooldowns now = none ∨
      core_section_names.filter
        (fun s => !(cacheLookupPhase cfg st0 ticker now).1.any (fun p => p.1 == s)) = []) :
    fetch_ticker_sections cfg o ticker cp st0 now =
      (match (if (!(core_section_names.filter
              (fun s => !(cacheLookupPhase cfg st0 ticker now).1.any (fun p => p.1 == s))).isEmpty ||
            !((cacheLookupPhase cfg st0 ticker now).1.any (fun p => p.1 == "buybacks"))) && !cp then
          match o.ctor with
          | .ok _ => none
          | .error e => some e
        else none) with
      | some exc => ctorFailResult cfg (cacheLookupPhase cfg st0 ticker now).1
          (cacheLookupPhase cfg st0 ticker now).2
          (core_section_names.filter
            (fun s => !(cacheLookupPhase cfg st0 ticker now).1.any (fun p => p.1 == s)))
          exc now
      | none => networkPhase cfg o ticker now (cacheLookupPhase cfg st0 ticker now).1
          (cacheLookupPhase cfg st0 ticker now).2
          (!(core_section_names.filter
              (fun s => !(cacheLookupPhase cfg st0 ticker now).1.any (fun p => p.1 == s))).isEmpty ||
            !((cacheLookupPhase cfg st0 ticker now).1.any (fun p => p.1 == "buybacks")))
          ((!(core_section_names.filter
              (fun s => !(cacheLookupPhase cfg st0 ticker now).1.any (fun p => p.1 == s))).isEmpty ||
            !((cacheLookupPhase cfg st0 ticker now).1.any (fun p => p.1 == "buybacks"))) && !cp)) := by
  rcases hbr with hact | hmiss
  · rcases hmv : core_section_names.filter
        (fun s => !(cacheLookupPhase cfg st0 ticker now).1.any (fun p => p.1 == s)) with _ | ⟨m, ms⟩
    · simp only [fetch_ticker_sections, hsm, Bool.false_eq_true, if_false, hact, hmv]
    · simp only [fetch_ticker_sections, hsm, Bool.false_eq_true, if_false, hact, hmv]
  · cases hact : active_rate_limit (cacheLookupPhase cfg st0 ticker now).2.cooldowns now with
    | none => simp only [fetch_ticker_sections, hsm, Bool.false_eq_true, if_false, hact, hmiss]
    | some v => simp only [fetch_ticker_sections, hsm, Bool.false_eq_true, if_false, hact, hmiss]

/-! ### Claim theorems -/

/-- Claim C5, corrected: for a rate-limit record with `retry_after = n` and
`n ≥ 1`, calling the tracker's `active()` immediately after `record(R)`
returns a record whose `remaining` satisfies `0 ≤ remaining ≤ n`.  (For
`n = 0` the Python `or` treats the value as falsy and substitutes the
60-second default, so `remaining` can be 60; see the counterexample.) -/
theorem c5_record_then_active (e : RateLimitError) (n now : Int)
    (cds : List (String × Int)) (hn : e.retry_after = some n) (h1 : 1 ≤ n) :
    ∃ rec m, active_rate_limit (record_rate_limit e now cds).2 now = some rec ∧
      rec.remaining = some m ∧ 0 ≤ m ∧ m ≤ n := by
  have heff : effectiveRetryAfter e.retry_after = n := by
    rw [hn]
    simp only [effectiveRetryAfter]
    rw [if_neg (by omega)]
  have hupd : (record_rate_limit e now cds).2 =
      updateCooldown cds (effectiveHost e.host) (now + n) := by
    unfold record_rate_limit
    rw [heff]
  have hmem : (effectiveHost e.host, now + n) ∈ (record_rate_limit e now cds).2 := by
    rw [hupd]
    exact updateCooldown_mem _ _ _
  obtain ⟨q, hq, hle⟩ := foldl_soonest_le now ((record_rate_limit e now cds).2) none
    (effectiveHost e.host, now + n) hmem (by omega)
  have hqpos : now < q.2 :=
    foldl_soonest_pos now _ none (by intro r hr; cases hr) q hq
  obtain ⟨h, resume⟩ := q
  have hact : active_rate_limit (record_rate_limit e now cds).2 now =
      some { status_code := none, message := "Rate limit active",
             retry_after := some (max 0 (resume - now)), headers := [],
             host := some h, payload := .vnone,
             remaining := some (max 0 (resume - now)) } := by
    unfold active_rate_limit soonestActiveCooldown
    rw [hq]
  refine ⟨_, max 0 (resume - now), hact, rfl, le_max_left _ _, ?_⟩
  have h1 : resume ≤ now + n := hle
  exact max_le (by omega) (by omega)

/-- Witness for C5: a concrete record with `retry_after = 7` recorded at
instant 0 over an empty cooldown table. -/
theorem c5_record_then_active_witness :
    ∃ rec m, active_rate_limit (record_rate_limit
      { status_code := some 429, message := "Too many requests",
        retry_after := some 7, headers := [] } 0 []).2 0 = some rec ∧
      rec.remaining = some m ∧ 0 ≤ m ∧ m ≤ 7 :=
  c5_record_then_active _ 7 0 [] rfl (by norm_num)

/-- Counterexample for C5 as stated: with `retry_after = 0` (a non-negative
integer), `record` falls back to the 60-second default, and `active()`
immediately afterwards reports `remaining = 60`, violating
`0 ≤ remaining ≤ 0`. -/
theorem c5_counterexample :
    ((active_rate_limit (record_rate_limit
        { status_code := some 429, message := "Too many requests",
          retry_after := some 0, headers := [] } 0 []).2 0).map
      (fun r => r.remaining) = some (some 60)) ∧ ¬((60 : Int) ≤ 0) := by
  refine ⟨?_, by norm_num⟩
  rfl

/-- Claim C6, corrected: `_parse_retry_after` returns the integer when the
`Retry-After` header holds an integer-seconds value; when the header holds
an ISO-8601 date (not an HTTP-date: `datetime.fromisoformat` does not accept
RFC 1123 dates) it returns the seconds from now until that date floored at
zero; an unparseable header value — including an RFC 1123 HTTP-date — yields
`none` without consulting the payload; with no header present, a truthy
integer `retry_after` (or, when that key is falsy, `retryAfter`) field of a
mapping payload is returned as an integer; otherwise `none`. -/
theorem c6_parse_retry_after (k : String) (n t : Int) (hs : List (String × HVal))
    (payload : PyVal) (now : Int) (hk : pyLower k = "retry-after") :
    (parse_retry_after ((k, .hint n) :: hs) payload now = some n) ∧
    (parse_retry_after ((k, .hiso t) :: hs) payload now = some (max 0 (t - now))) ∧
    (parse_retry_after ((k, .hhttpdate t) :: hs) payload now = none) ∧
    (parse_retry_after ((k, .hother) :: hs) payload now = none) ∧
    (∀ xs : List (String × PyVal), n ≠ 0 →
      dictGet xs "retry_after" = some (.vnum (n : ℚ)) →
      parse_retry_after [] (.vdict xs) now = some n) ∧
    (∀ xs : List (String × PyVal), n ≠ 0 →
      dictGet xs "retry_after" = some (.vnum ((0 : Int) : ℚ)) →
      dictGet xs "retryAfter" = some (.vnum (n : ℚ)) →
      parse_retry_after [] (.vdict xs) now = some n) ∧
    ((∀ xs : List (String × PyVal), payload ≠ .vdict xs) →
      parse_retry_after [] payload now = none) := by
  refine ⟨?_, ?_, ?_, ?_, ?_, ?_, ?_⟩
  · unfold parse_retry_after
    rw [findRetryAfterHeader_cons_hit _ _ _ hk]
  · unfold parse_retry_after
    rw [findRetryAfterHeader_cons_hit _ _ _ hk]
  · unfold parse_retry_after
    rw [findRetryAfterHeader_cons_hit _ _ _ hk]
  · unfold parse_retry_after
    rw [findRetryAfterHeader_cons_hit _ _ _ hk]
  · intro xs hn hget
    have hD : dictGetD xs "retry_after" .vnone = .vnum (n : ℚ) := by
      unfold dictGetD
      rw [hget]
      rfl
    have hpick : pickedRetryField xs = .vnum (n : ℚ) := by
      unfold pickedRetryField
      rw [hD, pyTruthy_vnum_intCast]
      simp [hn]
    show parsePayloadRetryAfter (.vdict xs) = some n
    simp only [parsePayloadRetryAfter, hpick, pyTruthy_vnum_intCast]
    rw [if_pos (by simpa using hn)]
    simp only [pyToIntOpt, ratTrunc_intCast]
  · intro xs hn hget0 hget1
    have hD0 : dictGetD xs "retry_after" .vnone = .vnum ((0 : Int) : ℚ) := by
      unfold dictGetD
      rw [hget0]
      rfl
    have hD1 : dictGetD xs "retryAfter" .vnone = .vnum (n : ℚ) := by
      unfold dictGetD
      rw [hget1]
      rfl
    have hpick : pickedRetryField xs = .vnum (n : ℚ) := by
      unfold pickedRetryField
      rw [hD0, hD1, pyTruthy_vnum_intCast]
      simp
    show parsePayloadRetryAfter (.vdict xs) = some n
    simp only [parsePayloadRetryAfter, hpick, pyTruthy_vnum_intCast]
    rw [if_pos (by simpa using hn)]
    simp only [pyToIntOpt, ratTrunc_intCast]
  · intro hnd
    show parsePayloadRetryAfter payload = none
    cases payload with
    | vdict xs => exact absurd rfl (hnd xs)
    | vnone => rfl
    | vbool b => rfl
    | vnum q => rfl
    | vstr s => rfl
    | vlist l => rfl
    | vother => rfl

/-- Witness for C6: the corrected behaviour at concrete inputs (header
"Retry-After: 7"; an ISO date 30 seconds in the future; an HTTP-date header;
a payload with `retry_after = 7`). -/
theorem c6_parse_retry_after_witness :
    (parse_retry_after [("Retry-After", .hint 7)] .vnone 100 = some 7) ∧
    (parse_retry_after [("Retry-After", .hiso 130)] .vnone 100 = some (max 0 (130 - 100))) ∧
    (parse_retry_after [("Retry-After", .hhttpdate 130)] .vnone 100 = none) ∧
    (parse_retry_after [("Retry-After", .hother)] .vnone 100 = none) ∧
    (parse_retry_after [] (.vdict [("retry_after", .vnum ((7 : Int) : ℚ))]) 100 = some 7) ∧
    (parse_retry_after [] (.vdict [("retry_after", .vnum ((0 : Int) : ℚ)),
        ("retryAfter", .vnum ((7 : Int) : ℚ))]) 100 = some 7) ∧
    (parse_retry_after [] .vnone 100 = none) := by
  have h := c6_parse_retry_after "Retry-After" 7 130 [] .vnone 100 (by decide)
  refine ⟨h.1, h.2.1, h.2.2.1, h.2.2.2.1,
    h.2.2.2.2.1 _ (by norm_num) rfl,
    h.2.2.2.2.2.1 _ (by norm_num) rfl rfl,
    h.2.2.2.2.2.2 (by intro xs hx; cases hx)⟩

/-- Counterexample for C6 as stated: an RFC 1123 HTTP-date header 50 seconds
in the future parses to `none`, not to the claimed seconds-from-now; a
payload `retry_after` of 0 yields `none`, not `some 0`; and with an
unparseable header present, the payload hint is never consulted. -/
theorem c6_counterexample :
    (parse_retry_after [("Retry-After", .hhttpdate 50)] .vnone 0 = none) ∧
    ¬(parse_retry_after [("Retry-After", .hhttpdate 50)] .vnone 0 =
        some (max 0 (50 - 0))) ∧
    (parse_retry_after [] (.vdict [("retry_after", .vnum ((0 : Int) : ℚ))]) 0 = none) ∧
    (parse_retry_after [("Retry-After", .hother)]
        (.vdict [("retry_after", .vnum ((5 : Int) : ℚ))]) 0 = none) := by
  refine ⟨rfl, ?_, rfl, rfl⟩
  decide

/-- Claim C9: the Section Normalizer `_safe_section` is total (this
embedding returns a mapping for every shape) and: a tabular section whose
index holds the ticker exactly once yields that row; a tabular section not
containing the ticker yields the empty mapping; a single labelled record
yields its mapping exactly when its label is the ticker; a key-based lookup
yielding a non-mapping gives the empty mapping; and any other shape gives
the empty mapping. -/
theorem c9_safe_section_shapes :
    (∀ (rows : List (String × List (String × PyVal))) r t,
        rows.filter (fun p => p.1 == t) = [r] →
        safe_section (.dataFrame rows) t = r.2) ∧
    (∀ (rows : List (String × List (String × PyVal))) t,
        rows.filter (fun p => p.1 == t) = [] →
        safe_section (.dataFrame rows) t = []) ∧
    (∀ (name : Option String) vals t, name = some t →
        safe_section (.series name vals) t = vals) ∧
    (∀ (name : Option String) vals t, name ≠ some t →
        safe_section (.series name vals) t = []) ∧
    (∀ entries t v, dictGet entries t = some v → (∀ xs, v ≠ .vdict xs) →
        safe_section (.mapObj entries) t = []) ∧
    (∀ t, safe_section .otherObj t = []) := by
  refine ⟨?_, ?_, ?_, ?_, ?_, ?_⟩
  · intro rows r t h
    simp only [safe_section]
    rw [h]
  · intro rows t h
    simp only [safe_section]
    rw [h]
  · intro name vals t h
    simp only [safe_section]
    rw [if_pos (by simpa using h)]
  · intro name vals t h
    simp only [safe_section]
    rw [if_neg (by simpa using h)]
  · intro entries t v hget hnd
    simp only [safe_section]
    rw [hget]
    cases v with
    | vdict xs => exact absurd rfl (hnd xs)
    | vnone => rfl
    | vbool b => rfl
    | vnum q => rfl
    | vstr s => rfl
    | vlist l => rfl
    | vother => rfl
  · intro t
    rfl

/-- Witness for C9: the spec round-trip — a tabular section with an AAPL row
`trailingPE = 30` yields that row; an unrelated ticker yields `{}`; a
non-mapping shape yields `{}`. -/
theorem c9_safe_section_witness :
    (safe_section (.dataFrame [("AAPL", [("trailingPE", .vnum 30)])]) "AAPL" =
      [("trailingPE", .vnum 30)]) ∧
    (safe_section (.dataFrame [("MSFT", [("trailingPE", .vnum 30)])]) "AAPL" = []) ∧
    (safe_section (.mapObj [("AAPL", .vnum 3)]) "AAPL" = []) ∧
    (safe_section .otherObj "AAPL" = []) :=
  ⟨c9_safe_section_shapes.1 [("AAPL", [("trailingPE", .vnum 30)])]
      ("AAPL", [("trailingPE", .vnum 30)]) "AAPL" rfl,
   c9_safe_section_shapes.2.1 [("MSFT", [("trailingPE", .vnum 30)])] "AAPL" rfl,
   c9_safe_section_shapes.2.2.2.2.1 [("AAPL", .vnum 3)] "AAPL" (.vnum 3) rfl
     (by intro xs hx; cases hx),
   c9_safe_section_shapes.2.2.2.2.2 "AAPL"⟩

/-- Claim C1 (code bug): at the spec's "partial data with fallback" scenario
— six non-empty core sections, a non-null metric, `key_stats.marketCap`
null, `price.marketCap` present — the `ensure_data_available` under `src/`
raises `ValueError` about the missing market cap instead of returning a
soft report resolving market cap via the `price` fallback, contradicting
the repository's own tests and its caller in `ui.py`. -/
theorem c1_ensure_data_available_raises :
    ensure_data_available "AAPL" c1_sections [("P/E Ratio", .vnum 20)] =
      .error (.valueError "Missing required fields for AAPL: market cap.") := by
  rfl

/-- Claim C8: the metrics dict assembled by `compute_metrics` derives
`cashflow_per_share = operating_cashflow / shares_outstanding` exactly when
both are numeric and shares outstanding is non-zero, else null;
`sales_per_share = key_stats.revenuePerShare` with the `total_revenue /
shares_outstanding` fallback under the same guard, else null; and
`free_cash_flow = financial.freeCashflow` scaled by `1e-9` when numeric,
else passed through unchanged (including null); and whatever mapping
`compute_metrics` successfully returns is exactly that dict. -/
theorem c8_compute_metrics_derivations (ticker : String)
    (sections : List (String × PyVal))
    (summary financial key_stats : List (String × PyVal))
    (hs : dictGetD sections "summary_detail" (.vdict []) = .vdict summary)
    (hf : dictGetD sections "financial_data" (.vdict []) = .vdict financial)
    (hk : dictGetD sections "key_stats" (.vdict []) = .vdict key_stats) :
    (dictGet (buildMetrics sections summary financial key_stats) "Cash Flow/Share" =
      some (if pyIsNum (dictGetD financial "operatingCashflow" .vnone) ∧
               pyIsNum (dictGetD key_stats "sharesOutstanding" .vnone) ∧
               pyNumVal (dictGetD key_stats "sharesOutstanding" .vnone) ≠ 0 then
              .vnum (pyNumVal (dictGetD financial "operatingCashflow" .vnone) /
                     pyNumVal (dictGetD key_stats "sharesOutstanding" .vnone))
            else .vnone)) ∧
    (dictGet (buildMetrics sections summary financial key_stats) "Sales/Share" =
      some (if isVNone (dictGetD key_stats "revenuePerShare" .vnone) ∧
               pyIsNum (dictGetD financial "totalRevenue" .vnone) ∧
               pyIsNum (dictGetD key_stats "sharesOutstanding" .vnone) ∧
               pyNumVal (dictGetD key_stats "sharesOutstanding" .vnone) ≠ 0 then
              .vnum (pyNumVal (dictGetD financial "totalRevenue" .vnone) /
                     pyNumVal (dictGetD key_stats "sharesOutstanding" .vnone))
            else dictGetD key_stats "revenuePerShare" .vnone)) ∧
    (dictGet (buildMetrics sections summary financial key_stats) "Free Cash Flow" =
      some (if pyIsNum (dictGetD financial "freeCashflow" .vnone) then
              .vnum (pyNumVal (dictGetD financial "freeCashflow" .vnone) / 10 ^ 9)
            else dictGetD financial "freeCashflow" .vnone)) ∧
    (∀ m, compute_metrics ticker sections = .ok m →
      m = buildMetrics sections summary financial key_stats) := by
  refine ⟨?_, ?_, ?_, ?_⟩
  · simp [buildMetrics, dictGet, List.find?]
  · simp [buildMetrics, dictGet, List.find?]
  · simp [buildMetrics, dictGet, List.find?]
  · intro m hm
    simp only [compute_metrics, getSec, hs, hf, hk] at hm
    unfold validate_metrics at hm
    split at hm
    · cases hm
    · cases hm
      rfl

/-- Witness for C8: with operating cashflow 10, shares outstanding 4, no
`revenuePerShare`, total revenue 50 and free cashflow 2e9, the derived
metrics are 5/2, 25/2 and 2. -/
theorem c8_compute_metrics_witness :
    (dictGet (buildMetrics c8_sections c8_summary c8_financial c8_key_stats)
        "Cash Flow/Share" = some (.vnum (5 / 2))) ∧
    (dictGet (buildMetrics c8_sections c8_summary c8_financial c8_key_stats)
        "Sales/Share" = some (.vnum (25 / 2))) ∧
    (dictGet (buildMetrics c8_sections c8_summary c8_financial c8_key_stats)
        "Free Cash Flow" = some (.vnum 2)) := by
  have h := c8_compute_metrics_derivations "AAPL" c8_sections c8_summary
    c8_financial c8_key_stats rfl rfl rfl
  have e1 : dictGetD c8_financial "operatingCashflow" PyVal.vnone = .vnum 10 := rfl
  have e2 : dictGetD c8_key_stats "sharesOutstanding" PyVal.vnone = .vnum 4 := rfl
  have e3 : dictGetD c8_key_stats "revenuePerShare" PyVal.vnone = .vnone := rfl
  have e4 : dictGetD c8_financial "totalRevenue" PyVal.vnone = .vnum 50 := rfl
  have e5 : dictGetD c8_financial "freeCashflow" PyVal.vnone = .vnum (2 * 10 ^ 9) := rfl
  refine ⟨?_, ?_, ?_⟩
  · rw [h.1, e1, e2]
    norm_num [pyIsNum, pyNumVal]
  · rw [h.2.1, e2, e3, e4]
    norm_num [pyIsNum, pyNumVal, isVNone]
  · rw [h.2.2.1, e5]
    norm_num [pyIsNum, pyNumVal]

/-- Claim C7: `validate_tickers` first normalizes by dropping blank entries,
uppercasing and deduplicating with first-seen order (formalized as the
refinement to `dedupFirst`); when the provider raises any error, the
normalized list is returned unchanged (fail open); and every successful
result — through the confirmation and reconciliation passes alike — has no
case-insensitive duplicate symbols (stated with the validate-cache entry
absent, as on a first call). -/
theorem c7_validate_tickers (cfg : Config) (inputs : List String) :
    (validate_tickers cfg inputs none none = .ok (normalizeTickers inputs)) ∧
    (normalizeTickers inputs =
      dedupFirst ((inputs.filter (fun s => s != "")).map pyUpper)) ∧
    (∀ (provider : Option ProviderData) (l : List String),
      validate_tickers cfg inputs provider none = .ok l →
      (l.map pyUpper).Nodup) := by
  refine ⟨?_, ?_, ?_⟩
  · unfold validate_tickers
    by_cases h0 : (normalizeTickers inputs).isEmpty
    · rw [if_pos h0, List.isEmpty_iff.mp h0]
    · rw [if_neg h0]
      by_cases hs : cfg.smoke
      · rw [if_pos hs]
      · rw [if_neg hs]
        by_cases hce : cache_enabled cfg
        · simp [hce]
        · simp [hce]
  · have h := normalizeAux_eq_dedupFirst inputs []
    unfold normalizeTickers
    rw [h]
    congr 1
    simp
  · intro provider l h
    unfold validate_tickers at h
    by_cases h0 : (normalizeTickers inputs).isEmpty
    · rw [if_pos h0] at h
      have hl : ([] : List String) = l := by injection h
      rw [← hl]
      simp
    · rw [if_neg h0] at h
      by_cases hs : cfg.smoke
      · rw [if_pos hs] at h
        have hl : normalizeTickers inputs = l := by injection h
        rw [← hl]
        exact upperNodup_map_pyUpper (normalizeTickers_upperNodup inputs)
      · rw [if_neg hs, ite_self] at h
        cases provider with
        | none =>
          have h2 : Except.ok (normalizeTickers inputs) = Except.ok l := h
          have hl : normalizeTickers inputs = l := by injection h2
          rw [← hl]
          exact upperNodup_map_pyUpper (normalizeTickers_upperNodup inputs)
        | some pd =>
          have h2 : (match validateLoop1 pd.quote_type (availableSymbols pd.symbols)
              [] (normalizeTickers inputs) with
            | Except.error e => Except.error e
            | Except.ok validated =>
              Except.ok
                (if !(availableSymbols pd.symbols).isEmpty ∧
                    validated.length < (availableSymbols pd.symbols).length then
                  validateLoop2 (normalizeTickers inputs) validated
                    (availableSymbols pd.symbols)
                else validated)) = Except.ok l := h
          cases hv : validateLoop1 pd.quote_type (availableSymbols pd.symbols) []
              (normalizeTickers inputs) with
          | error e =>
            rw [hv] at h2
            exact Except.noConfusion h2
          | ok validated =>
            rw [hv] at h2
            have hV : upperNodup validated :=
              validateLoop1_upperNodup _ _ _ [] upperNodup_nil validated hv
            have hl : (if !(availableSymbols pd.symbols).isEmpty ∧
                validated.length < (availableSymbols pd.symbols).length then
                  validateLoop2 (normalizeTickers inputs) validated
                    (availableSymbols pd.symbols)
                else validated) = l := by injection h2
            rw [← hl]
            split
            · exact upperNodup_map_pyUpper
                (validateLoop2_upperNodup _ _ _ hV)
            · exact upperNodup_map_pyUpper hV

/-- Witness for C7: a batch with a blank, a lowercase duplicate and a
provider error normalizes to the deduplicated uppercase list, and the
result has no case-insensitive duplicates. -/
theorem c7_validate_tickers_witness :
    (validate_tickers { smoke := false, cacheDisabledEnv := false }
        ["aapl", "", "AAPL", "msft"] none none = .ok ["AAPL", "MSFT"]) ∧
    ((["AAPL", "MSFT"].map pyUpper).Nodup) :=
  ⟨(c7_validate_tickers { smoke := false, cacheDisabledEnv := false }
      ["aapl", "", "AAPL", "msft"]).1.trans (by rfl),
   (c7_validate_tickers { smoke := false, cacheDisabledEnv := false }
      ["aapl", "", "AAPL", "msft"]).2.2 none ["AAPL", "MSFT"] (by rfl)⟩

/-- Claim C4: with an active cooldown and at least one core section missing
from the cache, `fetch_ticker_sections` returns the rate-limit short-circuit
bundle: it never instantiates the provider client, reads no section
attribute, fills each core section from cache hits or empty, and reports the
active cooldown in `error` with `remaining` the whole seconds until the
soonest expiry (30 for a cooldown recorded 30 seconds in the future). -/
theorem c4_cooldown_short_circuit (cfg : Config) (o : Oracle) (ticker : String)
    (cp : Bool) (st0 : CacheState) (now : Int) (limit : RateLimitError)
    (hsm : cfg.smoke = false)
    (hact : active_rate_limit (cacheLookupPhase cfg st0 ticker now).2.cooldowns now =
      some limit)
    (hne : core_section_names.filter
        (fun s => !(cacheLookupPhase cfg st0 ticker now).1.any (fun p => p.1 == s)) ≠ []) :
    (fetch_ticker_sections cfg o ticker cp st0 now =
      rateLimitResult (cacheLookupPhase cfg st0 ticker now).1
        (cacheLookupPhase cfg st0 ticker now).2
        (core_section_names.filter
          (fun s => !(cacheLookupPhase cfg st0 ticker now).1.any (fun p => p.1 == s)))
        limit) ∧
    ((fetch_ticker_sections cfg o ticker cp st0 now).ctorCalled = false) ∧
    ((fetch_ticker_sections cfg o ticker cp st0 now).attrsRead = []) ∧
    ((fetch_ticker_sections cfg o ticker cp st0 now).historyCalled = false) ∧
    ((fetch_ticker_sections cfg o ticker cp st0 now).bundle.error =
      some { message := limit.message, rate_limit := some limit }) ∧
    (∀ s ∈ core_section_names,
      bundleSection (fetch_ticker_sections cfg o ticker cp st0 now).bundle s =
        lookupSectionD (cacheLookupPhase cfg st0 ticker now).1 s) ∧
    (∀ (cds : List (String × Int)) (now2 : Int) (rec : RateLimitError),
      active_rate_limit cds now2 = some rec →
      ∃ hh resume, soonestActiveCooldown cds now2 = some (hh, resume) ∧
        now2 < resume ∧ rec.remaining = some (max 0 (resume - now2))) ∧
    (∀ (hh : String) (t0 : Int),
      (active_rate_limit [(hh, t0 + 30)] t0).map (fun r => r.remaining) =
        some (some 30)) := by
  have h1 := fetch_eq_rateLimitResult cfg o ticker cp st0 now limit hsm hact hne
  refine ⟨h1, ?_, ?_, ?_, ?_, ?_, ?_, ?_⟩
  · rw [h1]
    rfl
  · rw [h1]
    rfl
  · rw [h1]
    rfl
  · rw [h1]
    rfl
  · intro s hs
    rw [h1]
    exact bundleFromSections_section hs
  · intro cds now2 rec h
    unfold active_rate_limit at h
    rcases hsn : soonestActiveCooldown cds now2 with _ | ⟨hh, resume⟩
    · rw [hsn] at h
      exact Option.noConfusion h
    · rw [hsn] at h
      have hrec := Option.some.inj h
      have hpos : now2 < resume := by
        have := foldl_soonest_pos now2 cds none (by intro r hr; cases hr) (hh, resume)
        exact this (by simpa [soonestActiveCooldown] using hsn)
      exact ⟨hh, resume, rfl, hpos, by rw [← hrec]⟩
  · intro hh t0
    have hstep : soonestStep t0 none (hh, t0 + 30) = some (hh, t0 + 30) := by
      unfold soonestStep
      rw [if_pos ⟨by omega, rfl⟩]
    unfold active_rate_limit soonestActiveCooldown
    rw [List.foldl_cons, List.foldl_nil, hstep]
    have h30 : max 0 (t0 + 30 - t0) = 30 := by
      have : t0 + 30 - t0 = 30 := by ring
      rw [this]
      rfl
    simp [h30]

/-- Witness for C4: a cooldown 30 seconds in the future, an empty cache,
and a live oracle -- the fetch reads nothing and reports the cooldown. -/
theorem c4_cooldown_short_circuit_witness :
    ((fetch_ticker_sections c4_cfg c4_oracle "AAPL" false c4_state 0).ctorCalled = false) ∧
    ((fetch_ticker_sections c4_cfg c4_oracle "AAPL" false c4_state 0).attrsRead = []) ∧
    ((fetch_ticker_sections c4_cfg c4_oracle "AAPL" false c4_state 0).bundle.error =
      some { message := "Rate limit active", rate_limit := some c4_limit }) := by
  have h := c4_cooldown_short_circuit c4_cfg c4_oracle "AAPL" false c4_state 0
    c4_limit rfl rfl (by decide)
  exact ⟨h.2.1, h.2.2.1, h.2.2.2.2.1⟩

theorem core_not_buybacks : ∀ s ∈ core_section_names, s ≠ "buybacks" := by
  decide

/-- Claim C3: `price` and `summary_detail` use the short TTL and the other
sections including the synthetic `buybacks` entry use the long TTL (defaults
300 and 21600 seconds); every core section fetched over the network is
written back with expiry `now + ttl(section)` holding exactly the normalized
payload; and any fetch finding a not-yet-expired cache entry for a core
section serves that section from the cache — identical content, and the
section attribute is never read over the network. -/
theorem c3_section_cache_ttl :
    (∀ cfg : Config,
      section_ttl_seconds cfg "price" = cfg.priceTTL ∧
      section_ttl_seconds cfg "summary_detail" = cfg.priceTTL ∧
      section_ttl_seconds cfg "financial_data" = cfg.fundTTL ∧
      section_ttl_seconds cfg "asset_profile" = cfg.fundTTL ∧
      section_ttl_seconds cfg "key_stats" = cfg.fundTTL ∧
      section_ttl_seconds cfg "quote_type" = cfg.fundTTL ∧
      section_ttl_seconds cfg "buybacks" = cfg.fundTTL) ∧
    (({ smoke := false, cacheDisabledEnv := false } : Config).priceTTL = 300 ∧
      ({ smoke := false, cacheDisabledEnv := false } : Config).fundTTL = 21600) ∧
    (∀ (cfg : Config) (objs : String → SectionObj) (ticker : String) (cp : Bool)
        (now : Int), cfg.smoke = false → cache_enabled cfg = true →
      ∀ s ∈ core_section_names,
        (fetch_ticker_sections cfg ⟨.ok (), fun k => .ok (objs k), .error ()⟩
            ticker cp emptyCacheState now).state.cache (ticker, s) =
          some (now + section_ttl_seconds cfg s,
            PyVal.vdict (safe_section (objs s) ticker))) ∧
    (∀ (cfg : Config) (o : Oracle) (ticker : String) (cp : Bool)
        (st : CacheState) (now2 e : Int) (p : PyVal) (s : String),
      cfg.smoke = false → cache_enabled cfg = true → s ∈ core_section_names →
      st.cache (ticker, s) = some (e, p) → now2 < e →
      bundleSection (fetch_ticker_sections cfg o ticker cp st now2).bundle s = p ∧
      s ∉ (fetch_ticker_sections cfg o ticker cp st now2).attrsRead) := by
  refine ⟨fun cfg => ⟨rfl, rfl, rfl, rfl, rfl, rfl, rfl⟩, ⟨rfl, rfl⟩, ?_, ?_⟩
  · intro cfg objs ticker cp now hsm hce s hs
    have hphase := cacheLookupPhase_empty cfg ticker now
    have hact : active_rate_limit
        (cacheLookupPhase cfg emptyCacheState ticker now).2.cooldowns now = none := by
      rw [hphase]
      rfl
    have heq := fetch_eq_past_rateLimit cfg ⟨.ok (), fun k => .ok (objs k), .error ()⟩
      ticker cp emptyCacheState now hsm (Or.inl hact)
    rw [heq, hphase]
    simp only [networkPhase]
    obtain ⟨ha, hb, hc, hd, he⟩ := sectionLoop_allOk cfg
      ⟨.ok (), fun k => .ok (objs k), .error ()⟩ ticker now objs
      core_section_names [] emptyCacheState none []
      (fun k _ => rfl) (fun k _ => rfl) (by decide)
    have hbb : ((sectionLoop cfg ⟨.ok (), fun k => .ok (objs k), .error ()⟩
        ticker now core_section_names [] emptyCacheState none []).1.any
          (fun p => p.1 == "buybacks")) = false := by
      rw [ha]
      simp [core_section_names]
    rw [hb, hbb]
    simp only [Bool.false_eq_true, if_false, ite_self]
    exact (set_cached_section_other cfg _ ticker "buybacks" _ now (ticker, s)
      (fun hEq => core_not_buybacks s hs (congrArg Prod.snd hEq))).trans
      (he hce s hs)
  · intro cfg o ticker cp st now2 e p s hsm hce hs hcache hlt
    have hfind : ((cacheLookupPhase cfg st ticker now2).1).find?
        (fun q => q.1 == s) = some (s, p) :=
      cacheLookupFold_find hce requested_sections [] st hcache hlt
        (List.mem_append_left _ hs) rfl
    cases hact : active_rate_limit
        (cacheLookupPhase cfg st ticker now2).2.cooldowns now2 with
    | some limit =>
      rcases hmv : core_section_names.filter
          (fun s2 => !(cacheLookupPhase cfg st ticker now2).1.any
            (fun q => q.1 == s2)) with _ | ⟨m, ms⟩
      · have heq := fetch_eq_past_rateLimit cfg o ticker cp st now2 hsm (Or.inr hmv)
        rw [heq]
        cases hcf : (if (!(core_section_names.filter
              (fun s2 => !(cacheLookupPhase cfg st ticker now2).1.any
                (fun q => q.1 == s2))).isEmpty ||
            !((cacheLookupPhase cfg st ticker now2).1.any
              (fun q => q.1 == "buybacks"))) && !cp then
            match o.ctor with
            | .ok _ => none
            | .error e2 => some e2
          else none) with
        | some exc =>
          refine ⟨?_, by simp [ctorFailResult]⟩
          exact (bundleFromSections_section hs).trans (lookupSectionD_of_find? hfind)
        | none =>
          simp only [networkPhase]
          have hskip := sectionLoop_skip cfg o ticker now2 s (s, p)
            core_section_names (cacheLookupPhase cfg st ticker now2).1
            (cacheLookupPhase cfg st ticker now2).2 none [] hfind
          split
          · exact ⟨(bundleFromSections_section hs).trans
              (lookupSectionD_of_find? hskip.1), hskip.2 (by simp)⟩
          · exact ⟨(bundleFromSections_section hs).trans
              (lookupSectionD_of_find? hskip.1), hskip.2 (by simp)⟩
      · have heq := fetch_eq_rateLimitResult cfg o ticker cp st now2 limit hsm hact
          (by rw [hmv]; simp)
        rw [heq]
        refine ⟨?_, by simp [rateLimitResult]⟩
        exact (bundleFromSections_section hs).trans (lookupSectionD_of_find? hfind)
    | none =>
      have heq := fetch_eq_past_rateLimit cfg o ticker cp st now2 hsm (Or.inl hact)
      rw [heq]
      cases hcf : (if (!(core_section_names.filter
            (fun s2 => !(cacheLookupPhase cfg st ticker now2).1.any
              (fun q => q.1 == s2))).isEmpty ||
          !((cacheLookupPhase cfg st ticker now2).1.any
            (fun q => q.1 == "buybacks"))) && !cp then
          match o.ctor with
          | .ok _ => none
          | .error e2 => some e2
        else none) with
      | some exc =>
        refine ⟨?_, by simp [ctorFailResult]⟩
        exact (bundleFromSections_section hs).trans (lookupSectionD_of_find? hfind)
      | none =>
        simp only [networkPhase]
        have hskip := sectionLoop_skip cfg o ticker now2 s (s, p)
          core_section_names (cacheLookupPhase cfg st ticker now2).1
          (cacheLookupPhase cfg st ticker now2).2 none [] hfind
        split
        · exact ⟨(bundleFromSections_section hs).trans
            (lookupSectionD_of_find? hskip.1), hskip.2 (by simp)⟩
        · exact ⟨(bundleFromSections_section hs).trans
            (lookupSectionD_of_find? hskip.1), hskip.2 (by simp)⟩

theorem c3_section_cache_ttl_witness :
    section_ttl_seconds c3_cfg "price" = c3_cfg.priceTTL ∧
    section_ttl_seconds c3_cfg "key_stats" = c3_cfg.fundTTL ∧
    c3_cfg.priceTTL = 300 ∧ c3_cfg.fundTTL = 21600 ∧
    (fetch_ticker_sections c3_cfg c3_oracle "AAPL" false emptyCacheState 0).state.cache
        ("AAPL", "price") =
      some (0 + section_ttl_seconds c3_cfg "price",
        PyVal.vdict (safe_section (c3_objs "price") "AAPL")) ∧
    bundleSection (fetch_ticker_sections c3_cfg c3_oracle "AAPL" false c3_state 0).bundle
        "price" = PyVal.vdict [("regularMarketPrice", PyVal.vnum 5)] ∧
    "price" ∉ (fetch_ticker_sections c3_cfg c3_oracle "AAPL" false c3_state 0).attrsRead := by
  have h := c3_section_cache_ttl
  have h3 := h.2.2.1 c3_cfg c3_objs "AAPL" false 0 rfl rfl "price" (by decide)
  have h4 := h.2.2.2 c3_cfg c3_oracle "AAPL" false c3_state 0 100
    (PyVal.vdict [("regularMarketPrice", PyVal.vnum 5)]) "price" rfl rfl
    (by decide) rfl (by decide)
  exact ⟨(h.1 c3_cfg).1, (h.1 c3_cfg).2.2.2.2.1, rfl, rfl, h3, h4.1, h4.2⟩

theorem ctorFailResult_error (cfg : Config) (cached : List (String × PyVal))
    (st1 : CacheState) (missing : List String) (exc : ExcInfo) (now : Int) :
    ∃ d, (ctorFailResult cfg cached st1 missing exc now).bundle.error = some d ∧
      d.message = exc.msg := by
  simp only [ctorFailResult]
  cases hrl : (capture_error_details exc now).rate_limit with
  | some rl => exact ⟨_, rfl, rfl⟩
  | none => exact ⟨_, rfl, rfl⟩

theorem buybacksShape (o : Oracle) (ks : PyVal) :
    (∃ b, (match detect_buybacks o ks with
        | some x => PyVal.vbool x
        | none => PyVal.vnone) = PyVal.vbool b) ∨
      (match detect_buybacks o ks with
        | some x => PyVal.vbool x
        | none => PyVal.vnone) = PyVal.vnone := by
  cases detect_buybacks o ks with
  | some x => exact Or.inl ⟨x, rfl⟩
  | none => exact Or.inr rfl

theorem unwrapMatch (w : PyVal) :
    ∀ v, v = PyVal.vdict [("value", w)] →
      (match v with
        | PyVal.vdict xs => dictGetD xs "value" PyVal.vnone
        | v2 => v2) = w := by
  intro v hv
  subst hv
  rfl

/-- Claim C10 (implicit): the derived buybacks value `b` (true, false or
none) is cached wrapped as the mapping `{"value": b}` under the long TTL,
and a later fetch that finds all requested sections fresh in the cache
(including the wrapped buybacks entry) unwraps it: the bundle's buybacks
equals the wrapped value, the section attributes are not re-read, and the
history-based derivation is not re-run — wrap-then-unwrap is the identity
on the derived value. -/
theorem c10_buybacks_roundtrip :
    (∀ (cfg : Config) (objs : String → SectionObj) (hist : Except Unit HistInfo)
        (ticker : String) (cp : Bool) (now : Int),
      cfg.smoke = false → cache_enabled cfg = true →
      (fetch_ticker_sections cfg ⟨.ok (), fun k => .ok (objs k), hist⟩
          ticker cp emptyCacheState now).state.cache (ticker, "buybacks") =
        some (now + cfg.fundTTL, PyVal.vdict [("value",
          (fetch_ticker_sections cfg ⟨.ok (), fun k => .ok (objs k), hist⟩
            ticker cp emptyCacheState now).bundle.buybacks)]) ∧
      ((∃ b, (fetch_ticker_sections cfg ⟨.ok (), fun k => .ok (objs k), hist⟩
            ticker cp emptyCacheState now).bundle.buybacks = PyVal.vbool b) ∨
        (fetch_ticker_sections cfg ⟨.ok (), fun k => .ok (objs k), hist⟩
          ticker cp emptyCacheState now).bundle.buybacks = PyVal.vnone)) ∧
    (∀ (cfg : Config) (o : Oracle) (ticker : String) (cp : Bool)
        (st : CacheState) (now eb : Int) (w : PyVal),
      cfg.smoke = false → cache_enabled cfg = true →
      (∀ s ∈ core_section_names, ∃ e p, st.cache (ticker, s) = some (e, p) ∧ now < e) →
      st.cache (ticker, "buybacks") = some (eb, PyVal.vdict [("value", w)]) →
      now < eb →
      (fetch_ticker_sections cfg o ticker cp st now).bundle.buybacks = w ∧
      "buybacks" ∉ (fetch_ticker_sections cfg o ticker cp st now).attrsRead ∧
      (fetch_ticker_sections cfg o ticker cp st now).historyCalled = false) := by
  constructor
  · intro cfg objs hist ticker cp now hsm hce
    have hphase := cacheLookupPhase_empty cfg ticker now
    have hact : active_rate_limit
        (cacheLookupPhase cfg emptyCacheState ticker now).2.cooldowns now = none := by
      rw [hphase]
      rfl
    have heq := fetch_eq_past_rateLimit cfg ⟨.ok (), fun k => .ok (objs k), hist⟩
      ticker cp emptyCacheState now hsm (Or.inl hact)
    rw [heq, hphase]
    simp only [networkPhase]
    obtain ⟨ha, hb, hc, hd, he⟩ := sectionLoop_allOk cfg
      ⟨.ok (), fun k => .ok (objs k), hist⟩ ticker now objs
      core_section_names [] emptyCacheState none []
      (fun k _ => rfl) (fun k _ => rfl) (by decide)
    have hbb : ((sectionLoop cfg ⟨.ok (), fun k => .ok (objs k), hist⟩
        ticker now core_section_names [] emptyCacheState none []).1.any
          (fun p => p.1 == "buybacks")) = false := by
      rw [ha]
      simp [core_section_names]
    rw [hb, hbb]
    simp only [Bool.false_eq_true, if_false, ite_self]
    exact ⟨set_cached_section_same _ ticker "buybacks" _ now hce, buybacksShape _ _⟩
  · intro cfg o ticker cp st now eb w hsm hce hall hbw heb
    have hfindb : ((cacheLookupPhase cfg st ticker now).1).find?
        (fun q => q.1 == "buybacks") = some ("buybacks", PyVal.vdict [("value", w)]) :=
      cacheLookupFold_find hce requested_sections [] st hbw heb (by decide) rfl
    have hmiss : core_section_names.filter
        (fun s2 => !(cacheLookupPhase cfg st ticker now).1.any
          (fun q => q.1 == s2)) = [] := by
      rw [List.filter_eq_nil_iff]
      intro s2 hs2
      obtain ⟨e, p, hc2, hl2⟩ := hall s2 hs2
      have hf : ((cacheLookupPhase cfg st ticker now).1).find?
          (fun q => q.1 == s2) = some (s2, p) :=
        cacheLookupFold_find hce requested_sections [] st hc2 hl2
          (List.mem_append_left _ hs2) rfl
      simp [any_of_find? hf]
    have heq := fetch_eq_past_rateLimit cfg o ticker cp st now hsm (Or.inr hmiss)
    rw [heq]
    cases hcfv : (if (!(core_section_names.filter
          (fun s2 => !(cacheLookupPhase cfg st ticker now).1.any
            (fun q => q.1 == s2))).isEmpty ||
        !((cacheLookupPhase cfg st ticker now).1.any
          (fun q => q.1 == "buybacks"))) && !cp then
        match o.ctor with
        | .ok _ => none
        | .error e2 => some e2
      else none) with
    | some exc =>
      rw [hmiss, any_of_find? hfindb] at hcfv
      simp at hcfv
    | none =>
      simp only [networkPhase]
      have hskip := sectionLoop_skip cfg o ticker now "buybacks"
        ("buybacks", PyVal.vdict [("value", w)]) core_section_names
        (cacheLookupPhase cfg st ticker now).1
        (cacheLookupPhase cfg st ticker now).2 none [] hfindb
      have hany2 : ((sectionLoop cfg o ticker now core_section_names
          (cacheLookupPhase cfg st ticker now).1
          (cacheLookupPhase cfg st ticker now).2 none []).1.any
            (fun q => q.1 == "buybacks")) = true := any_of_find? hskip.1
      rw [hany2, if_pos rfl]
      refine ⟨?_, hskip.2 (by simp), rfl⟩
      exact unwrapMatch w _ (dictGetD_of_find? _ hskip.1)

theorem c10_buybacks_roundtrip_witness :
    (fetch_ticker_sections c3_cfg c3_oracle "AAPL" false emptyCacheState 0).state.cache
        ("AAPL", "buybacks") =
      some (0 + c3_cfg.fundTTL, PyVal.vdict [("value",
        (fetch_ticker_sections c3_cfg c3_oracle "AAPL" false
          emptyCacheState 0).bundle.buybacks)]) ∧
    (fetch_ticker_sections c3_cfg c3_oracle "AAPL" false c10_state 0).bundle.buybacks =
      PyVal.vbool true ∧
    "buybacks" ∉
      (fetch_ticker_sections c3_cfg c3_oracle "AAPL" false c10_state 0).attrsRead ∧
    (fetch_ticker_sections c3_cfg c3_oracle "AAPL" false c10_state 0).historyCalled =
      false := by
  have h := c10_buybacks_roundtrip
  have h1 := h.1 c3_cfg c3_objs (Except.error ()) "AAPL" false 0 rfl rfl
  have h2 := h.2 c3_cfg c3_oracle "AAPL" false c10_state 0 50 (PyVal.vbool true)
    rfl rfl
    (by
      intro s hs
      have hm : s ∈ ["summary_detail", "financial_data", "asset_profile",
          "key_stats", "quote_type", "price"] := hs
      fin_cases hm <;> exact ⟨50, PyVal.vdict [], rfl, by decide⟩)
    rfl (by decide)
  exact ⟨h1.1, h2.1, h2.2.1, h2.2.2⟩

/-- Claim C2: `fetch_ticker_sections` is total (the embedding is a total
function) and every upstream failure mode is encoded in the returned bundle:
(i) when every section-attribute access raises, all six core sections come
back as empty mappings, buybacks is None, and the error detail carries the
first failure's message; (ii) when the client constructor raises, the
sections are empty mappings, buybacks is None, the error detail carries the
constructor exception's message, and no section attribute is read; (iii)
when sections succeed but the history call raises, the failure is encoded
as a None buybacks value with no error and the normalized sections. -/
theorem c2_fetch_never_raises :
    (∀ (cfg : Config) (excs : String → ExcInfo) (ticker : String) (cp : Bool)
        (now : Int), cfg.smoke = false →
      (∀ s ∈ core_section_names,
        bundleSection (fetch_ticker_sections cfg
          ⟨.ok (), fun k => .error (excs k), .error ()⟩
          ticker cp emptyCacheState now).bundle s = PyVal.vdict []) ∧
      (fetch_ticker_sections cfg ⟨.ok (), fun k => .error (excs k), .error ()⟩
        ticker cp emptyCacheState now).bundle.buybacks = PyVal.vnone ∧
      (∃ d, (fetch_ticker_sections cfg ⟨.ok (), fun k => .error (excs k), .error ()⟩
          ticker cp emptyCacheState now).bundle.error = some d ∧
        d.message = (excs "summary_detail").msg)) ∧
    (∀ (cfg : Config) (e : ExcInfo) (sa : String → Except ExcInfo SectionObj)
        (hist : Except Unit HistInfo) (ticker : String) (now : Int),
      cfg.smoke = false →
      (∀ s ∈ core_section_names,
        bundleSection (fetch_ticker_sections cfg ⟨.error e, sa, hist⟩
          ticker false emptyCacheState now).bundle s = PyVal.vdict []) ∧
      (fetch_ticker_sections cfg ⟨.error e, sa, hist⟩
        ticker false emptyCacheState now).bundle.buybacks = PyVal.vnone ∧
      (∃ d, (fetch_ticker_sections cfg ⟨.error e, sa, hist⟩
          ticker false emptyCacheState now).bundle.error = some d ∧
        d.message = e.msg) ∧
      (fetch_ticker_sections cfg ⟨.error e, sa, hist⟩
        ticker false emptyCacheState now).attrsRead = []) ∧
    (∀ (cfg : Config) (objs : String → SectionObj) (ticker : String) (cp : Bool)
        (now : Int), cfg.smoke = false →
      (fetch_ticker_sections cfg ⟨.ok (), fun k => .ok (objs k), .error ()⟩
        ticker cp emptyCacheState now).bundle.error = none ∧
      (fetch_ticker_sections cfg ⟨.ok (), fun k => .ok (objs k), .error ()⟩
        ticker cp emptyCacheState now).bundle.buybacks = PyVal.vnone ∧
      (∀ s ∈ core_section_names,
        bundleSection (fetch_ticker_sections cfg
          ⟨.ok (), fun k => .ok (objs k), .error ()⟩
          ticker cp emptyCacheState now).bundle s =
            PyVal.vdict (safe_section (objs s) ticker))) := by
  refine ⟨?_, ?_, ?_⟩
  · intro cfg excs ticker cp now hsm
    have hphase := cacheLookupPhase_empty cfg ticker now
    have hact : active_rate_limit
        (cacheLookupPhase cfg emptyCacheState ticker now).2.cooldowns now = none := by
      rw [hphase]
      rfl
    have heq := fetch_eq_past_rateLimit cfg
      ⟨.ok (), fun k => .error (excs k), .error ()⟩
      ticker cp emptyCacheState now hsm (Or.inl hact)
    rw [heq, hphase]
    obtain ⟨ha, hreads, _herr, hd⟩ := sectionLoop_allError cfg
      ⟨.ok (), fun k => .error (excs k), .error ()⟩ ticker now excs
      core_section_names [] emptyCacheState none []
      (fun k _ => rfl) (fun k _ => rfl) (by decide)
    obtain ⟨d, hderr, hdmsg⟩ := hd rfl "summary_detail"
      ["financial_data", "asset_profile", "key_stats", "quote_type", "price"] rfl
    obtain ⟨dm, dsc, dh, dho, dra, drl⟩ := d
    simp only [networkPhase]
    have hbb : ((sectionLoop cfg ⟨.ok (), fun k => .error (excs k), .error ()⟩
        ticker now core_section_names [] emptyCacheState none []).1.any
          (fun p => p.1 == "buybacks")) = false := by
      rw [ha]
      simp [core_section_names]
    rw [hderr, hbb]
    simp only [Bool.false_eq_true, if_false, ite_self]
    refine ⟨?_, rfl, ?_⟩
    · intro s hs
      refine (bundleFromSections_section hs).trans ?_
      rw [ha]
      have hm : s ∈ ["summary_detail", "financial_data", "asset_profile",
          "key_stats", "quote_type", "price"] := hs
      fin_cases hm <;> rfl
    · cases drl with
      | some rl => exact ⟨_, rfl, hdmsg⟩
      | none => exact ⟨_, rfl, hdmsg⟩
  · intro cfg e sa hist ticker now hsm
    have hphase := cacheLookupPhase_empty cfg ticker now
    have hact : active_rate_limit
        (cacheLookupPhase cfg emptyCacheState ticker now).2.cooldowns now = none := by
      rw [hphase]
      rfl
    have heq := fetch_eq_past_rateLimit cfg ⟨.error e, sa, hist⟩
      ticker false emptyCacheState now hsm (Or.inl hact)
    rw [heq, hphase]
    refine ⟨?_, rfl, ?_, rfl⟩
    · intro s hs
      have hm : s ∈ ["summary_detail", "financial_data", "asset_profile",
          "key_stats", "quote_type", "price"] := hs
      fin_cases hm <;> rfl
    · exact ctorFailResult_error cfg [] emptyCacheState core_section_names e now
  · intro cfg objs ticker cp now hsm
    have hphase := cacheLookupPhase_empty cfg ticker now
    have hact : active_rate_limit
        (cacheLookupPhase cfg emptyCacheState ticker now).2.cooldowns now = none := by
      rw [hphase]
      rfl
    have heq := fetch_eq_past_rateLimit cfg ⟨.ok (), fun k => .ok (objs k), .error ()⟩
      ticker cp emptyCacheState now hsm (Or.inl hact)
    rw [heq, hphase]
    simp only [networkPhase]
    obtain ⟨ha, hb, hc, hd2, he⟩ := sectionLoop_allOk cfg
      ⟨.ok (), fun k => .ok (objs k), .error ()⟩ ticker now objs
      core_section_names [] emptyCacheState none []
      (fun k _ => rfl) (fun k _ => rfl) (by decide)
    have hbb : ((sectionLoop cfg ⟨.ok (), fun k => .ok (objs k), .error ()⟩
        ticker now core_section_names [] emptyCacheState none []).1.any
          (fun p => p.1 == "buybacks")) = false := by
      rw [ha]
      simp [core_section_names]
    rw [hb, hbb]
    simp only [Bool.false_eq_true, if_false, ite_self]
    refine ⟨rfl, rfl, ?_⟩
    intro s hs
    refine (bundleFromSections_section hs).trans ?_
    rw [ha]
    have hm : s ∈ ["summary_detail", "financial_data", "asset_profile",
        "key_stats", "quote_type", "price"] := hs
    fin_cases hm <;> rfl

theorem c2_fetch_never_raises_witness :
    bundleSection (fetch_ticker_sections c3_cfg
        ⟨.ok (), fun _ => .error c2_exc, .error ()⟩
        "AAPL" false emptyCacheState 0).bundle "price" = PyVal.vdict [] ∧
    (∃ d, (fetch_ticker_sections c3_cfg ⟨.ok (), fun _ => .error c2_exc, .error ()⟩
        "AAPL" false emptyCacheState 0).bundle.error = some d ∧
      d.message = "boom") ∧
    (∃ d, (fetch_ticker_sections c3_cfg
        ⟨.error c2_exc, fun _ => .ok SectionObj.otherObj, .error ()⟩
        "AAPL" false emptyCacheState 0).bundle.error = some d ∧
      d.message = "boom") ∧
    (fetch_ticker_sections c3_cfg c3_oracle "AAPL" false
      emptyCacheState 0).bundle.error = none ∧
    (fetch_ticker_sections c3_cfg c3_oracle "AAPL" false
      emptyCacheState 0).bundle.buybacks = PyVal.vnone := by
  have h := c2_fetch_never_raises
  have h1 := h.1 c3_cfg (fun _ => c2_exc) "AAPL" false 0 rfl
  have h2 := h.2.1 c3_cfg c2_exc (fun _ => .ok SectionObj.otherObj)
    (Except.error ()) "AAPL" 0 rfl
  have h3 := h.2.2 c3_cfg c3_objs "AAPL" false 0 rfl
  refine ⟨h1.1 "price" (by decide), ?_, ?_, h3.1, h3.2.1⟩
  · obtain ⟨d, hde, hdm⟩ := h1.2.2
    exact ⟨d, hde, hdm.trans rfl⟩
  · obtain ⟨d, hde, hdm⟩ := h2.2.2.1
    exact ⟨d, hde, hdm.trans rfl⟩

end StockDashboard
